import Mathlib

/-!
Verification of the lifecycle-orchestrator core of the `ansible-storage-protect`
repository.  The Python sources under `plugins/` are shallowly embedded:
pure helpers become Lean functions, and functions that talk to the host
(process execution, filesystem, package database) take the host's answers as
explicit oracle parameters.  Machine integers are modelled as `Int`/`Nat`
(no overflow is possible in the modelled code paths).  String manipulation is
modelled on `List Char` so that every definition evaluates by reduction.
-/

namespace StorageProtect

/-! ## Python string primitives used by the embedded code -/

/-- Decimal value of a digit string (helper for Python `int`). -/
def digitsVal (cs : List Char) : Nat :=
  cs.foldl (fun a c => a * 10 + (c.toNat - 48)) 0

/-- Parse a non-empty all-digit character list, else `none`. -/
def listToNat? (cs : List Char) : Option Nat :=
  if !cs.isEmpty && cs.all Char.isDigit then some (digitsVal cs) else none

/-- Python `int(p)` on a string: optional sign followed by decimal digits.
(Python additionally strips surrounding whitespace and accepts digit-group
underscores; such inputs do not occur in version segments, the only strings
the embedded code feeds to `int`.) -/
def pyIntOfChars (cs : List Char) : Option Int :=
  match cs with
  | [] => none
  | c :: rest =>
    if c = '-' then (listToNat? rest).map (fun n => -(n : Int))
    else if c = '+' then (listToNat? rest).map (fun n => (n : Int))
    else (listToNat? (c :: rest)).map (fun n => (n : Int))

/-- Python `str.split(sep)` for a one-character separator (worker). -/
def splitOnCharAux (sep : Char) : List Char → List Char → List (List Char)
  | [], acc => [acc.reverse]
  | c :: cs, acc =>
    if c = sep then acc.reverse :: splitOnCharAux sep cs []
    else splitOnCharAux sep cs (c :: acc)

/-- Python `str.split(sep)` for a one-character separator; like Python,
`"".split(sep)` is `[""]` and separators at the ends produce empty pieces. -/
def splitOnChar (sep : Char) (cs : List Char) : List (List Char) :=
  splitOnCharAux sep cs []

/-- Python `str.isdigit` restricted to ASCII, as the embedded code uses it. -/
def pyIsDigit (p : List Char) : Bool := !p.isEmpty && p.all Char.isDigit

/-- Python `<` on tuples/lists: lexicographic element comparison, a strict
prefix being smaller than the longer tuple. -/
def pyListLt {α : Type} (lt : α → α → Bool) : List α → List α → Bool
  | _, [] => false
  | [], _ :: _ => true
  | a :: as, b :: bs => if lt a b then true else if lt b a then false else pyListLt lt as bs

/-- Python `<` on characters: code-point comparison. -/
def charLtB (c d : Char) : Bool := decide (c.toNat < d.toNat)

/-- Python `<` on strings: code-point lexicographic. -/
def pyStrLt (a b : List Char) : Bool := pyListLt charLtB a b

/-! ## Version helpers (`tasks/utils.py` 298-314, `sp_server_utils.py` 564-595) -/

/-- `sp_server_utils._parse_version`: dotted version string `"1.2.3.4"` to the
tuple `(1,2,3,4)`; a segment `int` cannot parse becomes `0`. -/
def parse_version_dotted (version_str : List Char) : List Int :=
  (splitOnChar '.' version_str).map (fun p => (pyIntOfChars p).getD 0)

/-- Python `<` on `Int`, as a boolean. -/
def intLtB (a b : Int) : Bool := decide (a < b)

/-- ASCII alphanumeric: the class `[0-9A-Za-z]` of the regex in `version_parse`. -/
def isAlnumA (c : Char) : Bool := c.isDigit || c.isAlpha

/-- Worker for `alnumRuns`: `acc` holds the current run reversed. -/
def alnumRunsAux : List Char → List Char → List (List Char)
  | [], acc => if acc.isEmpty then [] else [acc.reverse]
  | c :: cs, acc =>
    if isAlnumA c then alnumRunsAux cs (c :: acc)
    else if acc.isEmpty then alnumRunsAux cs []
    else acc.reverse :: alnumRunsAux cs []

/-- The maximal alphanumeric runs of a string: exactly the non-empty pieces
produced by `re.split(r"[^0-9A-Za-z]+", v)`. -/
def alnumRuns (s : List Char) : List (List Char) := alnumRunsAux s []

/-- One normalized token of `version_parse`: Python builds the pair `(0, int)`
for a digit run and `(1, str)` for any other run. -/
inductive VTok where
  | num (n : Nat)
  | str (s : List Char)
deriving DecidableEq, Repr

/-- Python `<` on the `(0,int)` / `(1,str)` pairs built by `version_parse`:
the leading tag is compared first, so every `(0,_)` precedes every `(1,_)`. -/
def vtokLt : VTok → VTok → Bool
  | .num a, .num b => decide (a < b)
  | .num _, .str _ => true
  | .str _, .num _ => false
  | .str a, .str b => pyStrLt a b

/-- `version_parse` (`tasks/utils.py` 298-306, identical in
`sp_server_utils.py` 564-572): split on runs of non-alphanumerics; digit
pieces become `(0, int)`, other non-empty pieces `(1, str)`. -/
def version_parse (v : List Char) : List VTok :=
  (alnumRuns v).filterMap (fun p =>
    if pyIsDigit p then some (.num ((listToNat? p).getD 0))
    else if !p.isEmpty then some (.str p)
    else none)

/-- Parse every piece with `listToNat?`, `none` as soon as one piece fails. -/
def mapNat? : List (List Char) → Option (List Nat)
  | [] => some []
  | p :: pt =>
    match listToNat? p, mapNat? pt with
    | some a, some rest => some (a :: rest)
    | _, _ => none

/-- The dotted numeric segments of a version string: `some as` exactly when
every piece between the dots is a non-empty digit string. -/
def segsOf (cs : List Char) : Option (List Nat) :=
  mapNat? (splitOnChar '.' cs)

/-- "A's segments exceed B's at the first differing position": some common
prefix is followed by a strictly larger segment of A. -/
def gtAtFirstDiff (as bs : List Nat) : Prop :=
  ∃ p a b as2 bs2, as = p ++ a :: as2 ∧ bs = p ++ b :: bs2 ∧ b < a

/-- `version_is_newer` (`tasks/utils.py` 309-314, identical in
`sp_server_utils.py` 575-580): a falsy `current` (None or the empty string)
yields `True`; otherwise Python tuple `>` on the parses. -/
def version_is_newer (current : Option (List Char)) (candidate : List Char) : Bool :=
  match current with
  | none => true
  | some c =>
    if c.isEmpty then true
    else pyListLt vtokLt (version_parse c) (version_parse candidate)

/-! ## Platform Key Resolver (`tasks/utils.py` 67-78, `sp_server_utils.py` 75-102) -/

/-- The raw OS facts the resolvers read from the run context:
`context["os"]["family"]` and `context["os"].get("id")`, either of which may
be `None`. -/
structure OsFacts where
  family : Option (List Char)
  id : Option (List Char)
deriving DecidableEq, Repr

/-- Python `str.lower` (ASCII range; the compared values are ASCII). -/
def pyLower (cs : List Char) : List Char := cs.map Char.toLower

/-- `os_oskey` from `tasks/utils.py` 67-78: the single-string Platform Key
Resolver.  `(x or "")` is modelled by `Option.getD` and `fam or "unknown"`
by the final emptiness test. -/
def os_oskey (ctx : OsFacts) : List Char :=
  let fam := pyLower (ctx.family.getD [])
  if fam = "windows".toList then "windows".toList
  else if fam = "linux".toList then
    let distro_id := pyLower (ctx.id.getD [])
    if distro_id ∈ ["rhel".toList, "centos".toList, "rocky".toList, "almalinux".toList]
    then "rhel".toList
    else "linux".toList
  else if fam = "aix".toList then "aix".toList
  else if fam.isEmpty then "unknown".toList else fam

/-- Result of `sp_server_utils.os_oskey`: the dict
`{"os": os_family, "osname": os_name}`. -/
structure SpOsKey where
  os : List Char
  osname : List Char
deriving DecidableEq, Repr

/-- `os_oskey` from `sp_server_utils.py` 75-102: normalizes the family and the
distro id separately and returns both. -/
def sp_os_oskey (ctx : OsFacts) : SpOsKey :=
  let family := pyLower (ctx.family.getD [])
  let distro_id := pyLower (ctx.id.getD [])
  let os_family :=
    if family = "windows".toList then "windows".toList
    else if family = "linux".toList then "linux".toList
    else if family = "aix".toList ∨ family = "unix".toList then family
    else if family.isEmpty then "unknown".toList else family
  let os_name :=
    if os_family = "linux".toList then
      if distro_id ∈ ["rhel".toList, "centos".toList, "rocky".toList,
                      "almalinux".toList, "oraclelinux".toList]
      then "rhel".toList
      else if distro_id.isEmpty then "linux".toList else distro_id
    else if distro_id.isEmpty then os_family else distro_id
  ⟨os_family, os_name⟩

/-- The Platform Key Resolver rule table of claim C3 as the code forces it to
be amended: family compared case-insensitively; windows → "windows"; linux
with distro id in {rhel, centos, rocky, almalinux} → "rhel" (oraclelinux is
not in the set the code checks); any other linux distro id → "linux";
family aix → "aix"; any other family (unix included) → the lowercased family
string, or "unknown" when it is empty. -/
def osKeyAmendedSpec (ctx : OsFacts) : List Char :=
  let fam := pyLower (ctx.family.getD [])
  let distro := pyLower (ctx.id.getD [])
  if fam = "windows".toList then "windows".toList
  else if fam = "linux".toList ∧
      distro ∈ ["rhel".toList, "centos".toList, "rocky".toList, "almalinux".toList] then
    "rhel".toList
  else if fam = "linux".toList then "linux".toList
  else if fam = "aix".toList then "aix".toList
  else if fam.isEmpty then "unknown".toList
  else fam

/-! ## Command Runner (`tasks/utils.py` 197-223, `sp_server_utils.py` 455-489) -/

/-- A command as the Python runners accept it: a single string or an argv
list (`cmd: list[str] | str`). -/
inductive PyCmd where
  | str (s : List Char)
  | list (xs : List (List Char))
deriving DecidableEq, Repr

/-- What the external `subprocess.run` boundary does for one invocation:
normal completion, a raised `CalledProcessError`, or any other raised
exception (missing binary, permission denied, timeout, ...). -/
inductive ProcOutcome where
  | completed (rc : Int) (out err : List Char)
  | calledProcessError (rc : Int) (out err : List Char)
  | exc (msg : List Char)
deriving DecidableEq, Repr

/-- The `{rc, stdout, stderr}` dict both runners return (the extra `cmd` and
`dry_run` keys carry no contract and are omitted). -/
structure ExecResult where
  rc : Int
  stdout : List Char
  stderr : List Char
deriving DecidableEq, Repr

/-- The slice of the run context the runners read. -/
structure ExecContext where
  os : OsFacts
  dry_run : Bool
deriving DecidableEq, Repr

/-- The single-quote character (code point 39). -/
def squote : Char := Char.ofNat 39

/-- Lexer mode of the POSIX `shlex` model: outside quotes, inside single
quotes, inside double quotes. -/
inductive SxMode where
  | norm
  | insq
  | indq

/-- Worker for `shlexSplit`: `cur` is the token under construction
(reversed), `none` when no token has started.  Faithful to Python
`shlex.split` in POSIX mode with whitespace splitting: backslash escapes the
next character (inside double quotes only `"` and `\` are escapable), an
unterminated quote raises `ValueError("No closing quotation")` and a
trailing escape raises `ValueError("No escaped character")`. -/
def shlexAux : SxMode → List Char → Option (List Char) → Except (List Char) (List (List Char))
  | .norm, [], none => .ok []
  | .norm, [], some tok => .ok [tok.reverse]
  | .norm, c :: cs, cur =>
    if c = ' ' ∨ c = '\t' ∨ c = '\r' ∨ c = '\n' then
      match cur with
      | none => shlexAux .norm cs none
      | some tok => (shlexAux .norm cs none).map (fun ts => tok.reverse :: ts)
    else if c = '\\' then
      match cs with
      | [] => .error "No escaped character".toList
      | d :: cs2 => shlexAux .norm cs2 (some (d :: cur.getD []))
    else if c = squote then shlexAux .insq cs (some (cur.getD []))
    else if c = '"' then shlexAux .indq cs (some (cur.getD []))
    else shlexAux .norm cs (some (c :: cur.getD []))
  | .insq, [], _ => .error "No closing quotation".toList
  | .insq, c :: cs, cur =>
    if c = squote then shlexAux .norm cs cur
    else shlexAux .insq cs (some (c :: cur.getD []))
  | .indq, [], _ => .error "No closing quotation".toList
  | .indq, c :: cs, cur =>
    if c = '"' then shlexAux .norm cs cur
    else if c = '\\' then
      match cs with
      | [] => .error "No escaped character".toList
      | d :: cs2 =>
        if d = '"' ∨ d = '\\' then shlexAux .indq cs2 (some (d :: cur.getD []))
        else shlexAux .indq cs2 (some (d :: '\\' :: cur.getD []))
    else shlexAux .indq cs (some (c :: cur.getD []))

/-- Python `shlex.split` (POSIX mode), the tokenizer `sp_server_utils.exec_run`
applies to string commands on Linux before its `try` block. -/
def shlexSplit (s : List Char) : Except (List Char) (List (List Char)) :=
  shlexAux .norm s none

/-- How the `try/except` block of both runners renders a `subprocess.run`
outcome as the returned dict: a completion passes rc/stdout/stderr through,
a caught `CalledProcessError` passes its fields through, and any other
caught exception becomes rc 127 with the message in stderr. -/
def procToResult : ProcOutcome → ExecResult
  | .completed rc out err => ⟨rc, out, err⟩
  | .calledProcessError rc out err => ⟨rc, out, err⟩
  | .exc msg => ⟨127, [], msg⟩

/-- The Linux tokenizing preamble of `sp_server_utils.exec_run`: because
`type(cmd) is not List` compares against `typing.List` and is always true,
string AND list commands are both handed to `shlex.split`, which raises on
a non-string (an `AttributeError`). -/
def spSplitStep (cmd : PyCmd) : Except (List Char) Unit :=
  match cmd with
  | .str s => (shlexSplit s).map (fun _ => ())
  | .list _ => .error "AttributeError: shlex.split applied to a list".toList

/-- `exec_run` from `sp_server_utils.py` 455-489.  The Linux branch runs
`shlex.split(cmd)` before the `try` block and before the dry-run check, so a
raised tokenizer error escapes the function (`.error`); the converse
list-join branch is dead code (`type(cmd) is List` is never true) and is not
modelled.  The `proc` parameter is the outcome of the external
`subprocess.run` boundary. -/
def exec_run_sp (ctx : ExecContext) (cmd : PyCmd) (proc : ProcOutcome) :
    Except (List Char) ExecResult :=
  match (if pyLower (sp_os_oskey ctx.os).os = "linux".toList
         then spSplitStep cmd else .ok ()) with
  | .error e => .error e
  | .ok _ =>
    if ctx.dry_run then .ok ⟨0, [], []⟩
    else .ok (procToResult proc)

/-- The error payload of an `Except`, `none` on success. -/
def exceptErr? {ε α : Type} : Except ε α → Option ε
  | .error e => some e
  | .ok _ => none

/-- Whether the tokenizing preamble of `sp_server_utils.exec_run` succeeds
for a command: on non-Linux it runs nothing; on Linux a string command must
be accepted by `shlex.split` and a list command never is (it is handed to
`shlex.split` because of the dead `type(cmd) is List` test). -/
def spTokenizes (ctx : ExecContext) (cmd : PyCmd) : Bool :=
  if pyLower (sp_os_oskey ctx.os).os = "linux".toList then
    match cmd with
    | .str s => (shlexSplit s).isOk
    | .list _ => false
  else true

/-- `exec_run` from `tasks/utils.py` 197-223: no tokenizing preamble; the
dry-run check short-circuits, and the whole invocation is inside
`try/except`, every exception mapping to rc 127 with the message in stderr. -/
def exec_run_tasks (ctx : ExecContext) (_cmd : PyCmd) (proc : ProcOutcome) : ExecResult :=
  if ctx.dry_run then ⟨0, [], []⟩
  else procToResult proc

/-! ## Artifact Resolver (`sp_server_utils.py` 586-715: `find_installer`) -/

/-- One entry of `base_path.iterdir()`, in directory iteration order. -/
structure DirEntry where
  name : List Char
  isFile : Bool
deriving DecidableEq, Repr

/-- `pathlib.PurePath.suffix`: the extension from the last dot, empty when the
name has no dot, starts with its only dot, or ends with it. -/
def pySuffix (cs : List Char) : List Char :=
  match cs.reverse.findIdx? (fun c => c = '.') with
  | none => []
  | some r =>
    let i := cs.length - 1 - r
    if 0 < i ∧ i < cs.length - 1 then cs.drop i else []

/-- Stable insertion of `x` into an ascending list: `x` goes in front of the
first strictly greater element, hence after any equal one. -/
def insertAsc {α : Type} (lt : α → α → Bool) (x : α) : List α → List α
  | [] => [x]
  | y :: ys => if lt x y then x :: y :: ys else y :: insertAsc lt x ys

/-- Python `list.sort` (stable, ascending) for a strict comparison `lt`;
`list.sort(reverse=True)` is obtained by flipping `lt`. -/
def sortAsc {α : Type} (lt : α → α → Bool) (xs : List α) : List α :=
  xs.foldl (fun acc x => insertAsc lt x acc) []

/-- `find_installer`'s inner `extract_version_str`: the piece of the
extension-stripped filename before its first hyphen, `none` when there is no
hyphen. -/
def extract_version_str (name : List Char) : Option (List Char) :=
  let suffix := pySuffix name
  let name_no_ext := if suffix.isEmpty then name else name.take (name.length - suffix.length)
  if '-' ∈ name_no_ext then some (name_no_ext.takeWhile (fun c => c ≠ '-'))
  else none

/-- Extension resolution at the top of `find_installer`. -/
def installerExt (oskey : List Char) : List Char :=
  let ok := pyLower oskey
  if ok = "windows".toList ∨ ok = "win".toList then ".exe".toList
  else if ok = "linux".toList ∨ ok = "lin".toList then ".bin".toList
  else if ok = "rhel".toList ∨ ok = "centos".toList then ".bin".toList
  else match oskey with
    | '.' :: _ => oskey
    | _ => '.' :: oskey

/-- The dict `find_installer` returns: `status`, `message`, and the
`data` fields `installerfile` / `other_files` (file names; Python renders
them as paths under the base directory). -/
structure FindResult where
  status : Bool
  message : List Char
  installerfile : Option (List Char)
  other_files : List (List Char)
deriving DecidableEq, Repr

/-- Wrap a string in single quotes, as the f-strings of `find_installer` do. -/
def q (cs : List Char) : List Char := squote :: (cs ++ [squote])

/-- The candidate filter of `find_installer`: regular files whose `suffix`
equals the resolved extension (case-insensitively when requested). -/
def installerCandidates (ext : List Char) (case_insensitive : Bool)
    (entries : List DirEntry) : List DirEntry :=
  entries.filter (fun e =>
    e.isFile &&
      (if case_insensitive then decide (pyLower (pySuffix e.name) = pyLower ext)
       else decide (pySuffix e.name = ext)))

/-- The explicit-version filter of `find_installer`: filenames starting with
`"<version>-"` (case-insensitively when requested). -/
def versionMatches (v : List Char) (case_insensitive : Bool)
    (candidates : List DirEntry) : List DirEntry :=
  candidates.filter (fun p =>
    if case_insensitive then (pyLower (v ++ ['-'])).isPrefixOf (pyLower p.name)
    else (v ++ ['-']).isPrefixOf p.name)

/-- The `(path, version-string, parsed-tuple)` triples of the no-version
branch of `find_installer` (lines 688-693).  Python's `if not vstr: continue`
skips a falsy version string, i.e. both `None` (no hyphen) and the empty
string (a filename like `-a.bin` whose pre-hyphen segment is empty). -/
def versionedCandidates (candidates : List DirEntry) :
    List (DirEntry × List Char × List Int) :=
  candidates.filterMap (fun p =>
    match extract_version_str p.name with
    | none => none
    | some v => if v.isEmpty then none else some (p, v, parse_version_dotted v))

/-- The comparison of `matches.sort(key=lambda p: p.name)`. -/
def entryNameLt (a b : DirEntry) : Bool := pyStrLt a.name b.name

/-- The comparison of `versioned.sort(key=lambda x: x[2], reverse=True)`:
the stable descending sort by parsed tuple is the stable ascending sort
under the flipped tuple comparison. -/
def versionedLt (a b : DirEntry × List Char × List Int) : Bool :=
  pyListLt intLtB b.2.2 a.2.2

/-- The explicit-version branch of `find_installer` (lines 663-684). -/
def findInstallerWithVersion (v : List Char) (case_insensitive : Bool)
    (candidates : List DirEntry) : FindResult :=
  let matched := versionMatches v case_insensitive candidates
  if matched.isEmpty then
    ⟨false, "No installer found for version ".toList ++ q v ++ ".".toList, none, []⟩
  else
    let sorted := sortAsc entryNameLt matched
    ⟨true, "Found installer for version ".toList ++ q v ++ ".".toList,
      some ((sorted.headD ⟨[], false⟩).name),
      (sorted.drop 1).map (fun e => e.name)⟩

/-- The no-version branch of `find_installer` (lines 686-706). -/
def findInstallerNoVersion (candidates : List DirEntry) : FindResult :=
  let versioned := versionedCandidates candidates
  if versioned.isEmpty then
    let sorted := sortAsc entryNameLt candidates
    ⟨true, "No version data found; selected last file by name.".toList,
      some ((sorted.getLastD ⟨[], false⟩).name),
      sorted.dropLast.map (fun e => e.name)⟩
  else
    let sorted := sortAsc versionedLt versioned
    ⟨true, "Selected latest version ".toList ++ q ((sorted.headD (⟨[], false⟩, [], [])).2.1),
      some ((sorted.headD (⟨[], false⟩, [], [])).1.name),
      (sorted.drop 1).map (fun t => t.1.name)⟩

/-- `find_installer` (`sp_server_utils.py` 598-715).  `baseDirExists` models
`base_path.is_dir()` and `entries` the directory listing in iteration order;
the chosen and alternate files are reported by name.  The two `list.sort`
calls are Python's stable sort; `reverse=True` is the flipped comparison. -/
def find_installer (oskey : List Char) (base_dir : List Char)
    (baseDirExists : Bool) (entries : List DirEntry)
    (case_insensitive : Bool) (version : Option (List Char)) : FindResult :=
  let ext := installerExt oskey
  if !baseDirExists then
    ⟨false, "Base directory does not exist: ".toList ++ base_dir, none, []⟩
  else
    let candidates := installerCandidates ext case_insensitive entries
    if candidates.isEmpty then
      ⟨false, "No files with extension ".toList ++ q ext ++ " found in ".toList ++ base_dir,
        none, []⟩
    else
      match version with
      | some v => findInstallerWithVersion v case_insensitive candidates
      | none => findInstallerNoVersion candidates

/-- The selection property of claim C1, amended as the code forces: with the
base directory present and at least one candidate file,
(i) an explicit version with no `"<version>-"` match is `NotFound`;
(ii) with matches, the chosen file is a match that no match precedes
lexicographically, and the alternates are exactly the remaining matches;
(iii) the explicit-version choice does not depend on directory iteration
order;
(iv) with no explicit version, the chosen candidate carries a parsed version
tuple no other versioned candidate exceeds (equal maximal tuples are broken
by iteration order, which is the uncorrectable part of the original claim);
(v) when no candidate yields a version string, the fallback picks a
candidate that no candidate exceeds lexicographically, independently of
iteration order. -/
def FindInstallerAmendedP (oskey base_dir : List Char) (entries : List DirEntry)
    (ci : Bool) : Prop :=
  (∀ v, versionMatches v ci (installerCandidates (installerExt oskey) ci entries) = [] →
      (find_installer oskey base_dir true entries ci (some v)).status = false ∧
      (find_installer oskey base_dir true entries ci (some v)).installerfile = none) ∧
  (∀ v, versionMatches v ci (installerCandidates (installerExt oskey) ci entries) ≠ [] →
      ∃ ch, ch ∈ versionMatches v ci (installerCandidates (installerExt oskey) ci entries) ∧
        (find_installer oskey base_dir true entries ci (some v)).status = true ∧
        (find_installer oskey base_dir true entries ci (some v)).installerfile = some ch.name ∧
        (∀ e ∈ versionMatches v ci (installerCandidates (installerExt oskey) ci entries),
          pyStrLt e.name ch.name = false) ∧
        (ch.name :: (find_installer oskey base_dir true entries ci (some v)).other_files).Perm
          ((versionMatches v ci (installerCandidates (installerExt oskey) ci entries)).map
            (fun e => e.name))) ∧
  (∀ entries2 v, entries.Perm entries2 →
      (find_installer oskey base_dir true entries ci (some v)).installerfile =
        (find_installer oskey base_dir true entries2 ci (some v)).installerfile) ∧
  (versionedCandidates (installerCandidates (installerExt oskey) ci entries) ≠ [] →
      ∃ ch, ch ∈ versionedCandidates (installerCandidates (installerExt oskey) ci entries) ∧
        (find_installer oskey base_dir true entries ci none).status = true ∧
        (find_installer oskey base_dir true entries ci none).installerfile = some ch.1.name ∧
        ∀ e ∈ versionedCandidates (installerCandidates (installerExt oskey) ci entries),
          pyListLt intLtB ch.2.2 e.2.2 = false) ∧
  (versionedCandidates (installerCandidates (installerExt oskey) ci entries) = [] →
      (∃ ch, ch ∈ installerCandidates (installerExt oskey) ci entries ∧
        (find_installer oskey base_dir true entries ci none).status = true ∧
        (find_installer oskey base_dir true entries ci none).installerfile = some ch.name ∧
        ∀ e ∈ installerCandidates (installerExt oskey) ci entries,
          pyStrLt ch.name e.name = false) ∧
      (∀ entries2, entries.Perm entries2 →
        (find_installer oskey base_dir true entries ci none).installerfile =
          (find_installer oskey base_dir true entries2 ci none).installerfile))

/-! ## Installed-State Detector (`sp_server_utils.py` 998-1071: `ba_is_installed`) -/

/-- Decimal digits of a natural number (worker, fuelled). -/
def natCharsAux : Nat → Nat → List Char
  | 0, _ => []
  | fuel + 1, n =>
    if n < 10 then [Char.ofNat (48 + n)]
    else natCharsAux fuel (n / 10) ++ [Char.ofNat (48 + n % 10)]

/-- Python `str(n)` for a natural number. -/
def natChars (n : Nat) : List Char := natCharsAux (n + 1) n

/-- Python `str(i)` for an integer. -/
def intChars : Int → List Char
  | .ofNat n => natChars n
  | .negSucc n => '-' :: natChars (n + 1)

/-- Python `str.replace(pat, "")` for a non-empty pattern (worker, fuelled
by the string length; each step consumes at least one character). -/
def pyReplaceAux (pat : List Char) : Nat → List Char → List Char
  | _, [] => []
  | 0, cs => cs
  | fuel + 1, c :: cs =>
    if pat.isPrefixOf (c :: cs) then pyReplaceAux pat fuel ((c :: cs).drop pat.length)
    else c :: pyReplaceAux pat fuel cs

/-- Python `s.replace(pat, "")`: delete every occurrence, left to right. -/
def pyReplaceDel (pat cs : List Char) : List Char :=
  if pat.isEmpty then cs else pyReplaceAux pat cs.length cs

/-- Python `x in y` on strings: substring test (`""` is in everything). -/
def listIsInfix (pat : List Char) : List Char → Bool
  | [] => pat.isEmpty
  | c :: cs => pat.isPrefixOf (c :: cs) || listIsInfix pat cs

/-- Python dict assignment `m[k] = v` on an association list. -/
def dictSet (m : List (List Char × List Char)) (k v : List Char) :
    List (List Char × List Char) :=
  if m.any (fun kv => decide (kv.1 = k)) then
    m.map (fun kv => if kv.1 = k then (k, v) else kv)
  else m ++ [(k, v)]

/-- Python dict lookup returning `none` when the key is absent. -/
def dictGet (m : List (List Char × List Char)) (k : List Char) : Option (List Char) :=
  (m.find? (fun kv => decide (kv.1 = k))).map (fun kv => kv.2)

/-- The dict `ba_is_installed` returns: `status`, `message`, and
`data.installedpackages`. -/
structure BaInstalledRet where
  status : Bool
  message : List Char
  installedpackages : List (List Char × List Char)
deriving DecidableEq, Repr

/-- The `for line in stdlines: ... return ret_data / else: ...` block of
`ba_is_installed` (lines 1040-1065).  The `return` sits inside the loop
body, so only the first line is ever examined; the `for`-`else` arm runs
only when `stdlines` is empty, which `str.split` never produces. -/
def baScanLines (package_id : List Char) (stdlines : List (List Char))
    (ret0 : BaInstalledRet) : BaInstalledRet :=
  match stdlines with
  | [] =>
    ⟨false, "SP Server packages not installed".toList, ret0.installedpackages⟩
  | line :: _ =>
    let ret1 : BaInstalledRet :=
      if listIsInfix (pyLower package_id) (pyLower line) then
        ⟨true, ret0.message,
          dictSet ret0.installedpackages package_id
            (pyReplaceDel (package_id ++ ['_']) line)⟩
      else ret0
    if ret1.status then
      ⟨ret1.status,
        "SP Server packages are installed: ".toList ++
          natChars ret1.installedpackages.length,
        ret1.installedpackages⟩
    else ret1

/-- `ba_is_installed` (`sp_server_utils.py` 998-1071).  `imclExists` is the
`fs_exists` probe of the `imcl` binary, `resp` the `exec_run` result of
`imcl listInstalledPackages` (its dict always carries `rc`, so the
`"rc" not in resp` arm is dead and not modelled), `package_id` the
`install_data["id"]` of the target offering. -/
def ba_is_installed (imclExists : Bool) (resp : ExecResult)
    (package_id : List Char) : BaInstalledRet :=
  let ret0 : BaInstalledRet := ⟨true, [], []⟩
  if !imclExists then
    ⟨false, "IMCL not found. Considering not installed".toList, []⟩
  else if resp.rc = 0 then
    baScanLines package_id (splitOnChar '\n' resp.stdout) ret0
  else
    ⟨false, "Error while fetching list of installed packages: ".toList ++ intChars resp.rc, []⟩

/-! ## Rollback Manager (`ba_client_utils.py` 244-438) -/

/-- Python `str.strip()` (ASCII whitespace). -/
def pyWsChar (c : Char) : Bool :=
  c = ' ' ∨ c = '\t' ∨ c = '\r' ∨ c = '\n' ∨ c = '\x0b' ∨ c = '\x0c'

/-- Python `str.strip()`. -/
def pyStrip (cs : List Char) : List Char :=
  ((cs.dropWhile pyWsChar).reverse.dropWhile pyWsChar).reverse

/-- The host boundary of `BAClientHelper`: `module.run_command` (always with
`check_rc=False` on the rollback paths, so a non-zero rc never aborts) and
`os.path.exists`. -/
structure RollbackEnv where
  runCmd : PyCmd → Int × List Char × List Char
  pathExists : List Char → Bool

/-- One element of the `results` list a rollback branch builds (each Python
dict shape gets one constructor). -/
inductive RbEntry where
  | pkgFull (package : List Char) (rc : Int) (stdout stderr : List Char)
  | pkgErr (package : List Char) (rc : Int) (stderr : List Char)
  | pkgMissing (package : List Char) (error : List Char)
  | fileRestored (orig : List Char) (status : List Char)
  | cleanup (dir : List Char) (status : List Char)
deriving DecidableEq, Repr

/-- The dict a rollback branch returns; only the Linux install branch sets
the `status` key. -/
structure RollbackRet where
  rollback_type : List Char
  results : List RbEntry
  status : Option (List Char)
deriving DecidableEq, Repr

/-- `_rollback_linux` install-branch removal order (lines 266-276). -/
def rbUninstallOrder : List (List Char) :=
  ["TIVsm-WEBGUI".toList, "TIVsm-JBB".toList, "TIVsm-BAhdw".toList,
   "TIVsm-BAcit".toList, "TIVsm-APIcit".toList, "TIVsm-BA".toList,
   "TIVsm-API64".toList, "gskssl64".toList, "gskcrypt64".toList]

/-- `_rollback_linux` reinstall order (lines 305-308 and 340-349). -/
def rbReinstallOrder : List (List Char) :=
  ["gskcrypt64".toList, "gskssl64".toList, "TIVsm-API64".toList,
   "TIVsm-APIcit".toList, "TIVsm-BA".toList, "TIVsm-BAcit".toList,
   "TIVsm-BAhdw".toList, "TIVsm-WEBGUI".toList]

/-- `BAClientHelper._rollback_linux` (lines 259-370).  Every command runs
with `check_rc=False`; the final `rpm -qa` verification of the upgrade
branch only chooses a log line and does not change the returned value.  An
action other than the three falls off the function, Python's implicit
`None` (`none` here). -/
def rollback_linux (env : RollbackEnv) (action : List Char) : Option RollbackRet :=
  if action = "install".toList then
    let results := rbUninstallOrder.map (fun pkg =>
      let r := env.runCmd (.str ("rpm -e --nodeps --noscripts ".toList ++ pkg))
      RbEntry.pkgFull pkg r.1 (pyStrip r.2.1) (pyStrip r.2.2))
    let v := env.runCmd (.str ("rpm -qa ".toList ++ q "TIVsm*".toList))
    let status :=
      if (pyStrip v.2.1).isEmpty then
        "Rollback successful: All TIVsm packages removed.".toList
      else
        "Rollback warning: Some TIVsm packages still present:\n".toList ++ pyStrip v.2.1
    some ⟨"install".toList, results, some status⟩
  else if action = "uninstall".toList then
    let results := rbReinstallOrder.map (fun pkg =>
      let r := env.runCmd (.str ("rpm -ivh /opt/baClient/".toList ++ pkg ++ "*.rpm".toList))
      RbEntry.pkgErr pkg r.1 (pyStrip r.2.2))
    some ⟨"uninstall".toList, results, none⟩
  else if action = "upgrade".toList then
    let restored := (["/opt/tivoli/tsm/client/ba/bin/dsm.opt.bk".toList,
                      "/opt/tivoli/tsm/client/ba/bin/dsm.sys.bk".toList]).map (fun file =>
      let orig := pyReplaceDel ".bk".toList file
      if env.pathExists file then RbEntry.fileRestored orig "restored".toList
      else RbEntry.fileRestored orig "backup_missing".toList)
    -- rpm -e $(rpm -qa 'TIVsm*'), check_rc=False, result unused
    let reinstalled := rbReinstallOrder.map (fun pkg =>
      let r := env.runCmd (.str ("rpm -ivh /opt/baClientPackagesBk/".toList ++ pkg ++ "*.rpm".toList))
      RbEntry.pkgErr pkg r.1 (pyStrip r.2.2))
    let cleanup :=
      if env.pathExists "/opt/baClientPackagesBk".toList then
        [RbEntry.cleanup "/opt/baClientPackagesBk".toList "removed".toList]
      else []
    some ⟨"upgrade".toList, restored ++ reinstalled ++ cleanup, none⟩
  else none

/-- The message of the `AttributeError` raised when `_rollback_windows`
evaluates `self.install_dir`, an attribute no code ever assigns on
`BAClientHelper` (its `__init__` sets only `self.module`). -/
def installDirAttrErr : List Char :=
  "AttributeError: BAClientHelper has no attribute install_dir".toList

/-- `BAClientHelper._rollback_windows` (lines 374-438).  The uninstall branch
evaluates `os.path.join(self.install_dir, ...)` unconditionally and the
upgrade branch evaluates `self.install_dir` whenever the backup installer
exists; both raise `AttributeError` (`.error`), since the attribute is never
assigned. -/
def rollback_windows (env : RollbackEnv) (action : List Char) :
    Except (List Char) (Option RollbackRet) :=
  if action = "install".toList then
    let targets := ["IBM Storage Protect Client".toList,
                    "IBM Spectrum Protect Client".toList,
                    "Tivoli Storage Manager Client".toList]
    let results := targets.map (fun target =>
      let r := env.runCmd (.list ["powershell.exe".toList, "-Command".toList, target])
      RbEntry.pkgErr target r.1 (pyStrip r.2.2))
    .ok (some ⟨"install".toList, results, none⟩)
  else if action = "uninstall".toList then
    .error installDirAttrErr
  else if action = "upgrade".toList then
    let restored := (["C:\\Program Files\\Tivoli\\tsm\\client\\ba\\bin\\dsm.opt.bk".toList,
                      "C:\\Program Files\\Tivoli\\tsm\\client\\ba\\bin\\dsm.sys.bk".toList]).map
      (fun file =>
        let orig := pyReplaceDel ".bk".toList file
        if env.pathExists file then RbEntry.fileRestored orig "restored".toList
        else RbEntry.fileRestored orig "backup_missing".toList)
    let installerPath := "C:\\temp\\baClientBackup\\8.1.25.0-TIV-TSMBAC-WinX64.exe".toList
    if env.pathExists installerPath then .error installDirAttrErr
    else
      let step2 := [RbEntry.pkgMissing "BA Client".toList "Backup installer missing".toList]
      let cleanup :=
        if env.pathExists "C:\\temp\\baClientBackup".toList then
          [RbEntry.cleanup "C:\\temp\\baClientBackup".toList "removed".toList]
        else []
      .ok (some ⟨"upgrade".toList, restored ++ step2 ++ cleanup, none⟩)
  else .ok none

/-- `BAClientHelper.rollback` (lines 244-256): dispatch on the platform. -/
def rollback (isWindows : Bool) (env : RollbackEnv) (action : List Char) :
    Except (List Char) (Option RollbackRet) :=
  if isWindows then rollback_windows env action
  else .ok (rollback_linux env action)

/-- A concrete host answer table for rollback runs: every command exits 0
with empty output, no path exists. -/
def rollbackEnvC : RollbackEnv := ⟨fun _ => (0, [], []), fun _ => false⟩

/-! ## Uninstall (`ba_client_utils.py` 555-618: `uninstall_ba_client`, Linux path) -/

/-- `uninstall_ba_client` removal order (lines 584-594). -/
def baUninstallOrder : List (List Char) :=
  ["TIVsm-BAcit".toList, "TIVsm-BAhdw".toList, "TIVsm-WEBGUI".toList,
   "TIVsm-JBB".toList, "TIVsm-BA".toList, "TIVsm-APIcit".toList,
   "TIVsm-API64".toList, "gskssl64".toList, "gskcrypt64".toList]

/-- Python `sep.join(xs)`. -/
def joinSep (sep : List Char) : List (List Char) → List Char
  | [] => []
  | [x] => x
  | x :: xs => x ++ sep ++ joinSep sep xs

/-- The host boundary of `uninstall_ba_client`: every command runs through
`run_cmd(..., check_rc=False)`. -/
structure UninstallEnv where
  runCmd : List Char → Int × List Char × List Char

/-- How an `uninstall_ba_client` run ends: `fail_json` with a message,
`return False` ("not installed"), or `return True`. -/
inductive UninstallOutcome where
  | failJson (msg : List Char)
  | notInstalled
  | success
deriving DecidableEq, Repr

/-- An `uninstall_ba_client` run together with its observable effects: the
packages whose removal succeeded / failed (in attempt order) and whether
`shutil.rmtree(backup_dir)` was reached. -/
structure UninstallRun where
  outcome : UninstallOutcome
  succeeded : List (List Char)
  failed : List (List Char × List Char)
  backupRemoved : Bool
deriving DecidableEq, Repr

/-- The removal loop of `uninstall_ba_client` (lines 599-608): packages not
reported installed by `rpm -q` are skipped; the rest are removed with
`rpm -e`, collecting successes and `(package, stderr)` failures in order. -/
def uninstallScan (env : UninstallEnv) :
    List (List Char) → List (List Char) × List (List Char × List Char)
  | [] => ([], [])
  | pkg :: rest =>
    if (env.runCmd ("rpm -q ".toList ++ pkg)).1 ≠ 0 then uninstallScan env rest
    else
      let r := env.runCmd ("rpm -e ".toList ++ pkg)
      let (s, f) := uninstallScan env rest
      if r.1 = 0 then (pkg :: s, f) else (s, (pkg, r.2.2) :: f)

/-- The `fail_json` message of lines 611-614. -/
def uninstallFailMsg (failed : List (List Char × List Char)) : List Char :=
  "Uninstallation failed for packages: ".toList ++
    joinSep ", ".toList (failed.map (fun p => p.1)) ++
    ". Reason(s): ".toList ++
    joinSep "; ".toList (failed.map (fun p => p.2)) ++ ".".toList

/-- `uninstall_ba_client` (Linux path, lines 566-618).  Service stop,
config-file backup and rpm copying to the backup directory are host effects
with no influence on the returned value and are not tracked; `backupRemoved`
records whether the final `shutil.rmtree(backup_dir, ...)` was reached. -/
def uninstall_ba_client (env : UninstallEnv) : UninstallRun :=
  if (env.runCmd "rpm -q TIVsm-BA".toList).1 ≠ 0 then ⟨.notInstalled, [], [], false⟩
  else
    let sf := uninstallScan env baUninstallOrder
    if sf.2.isEmpty then ⟨.success, sf.1, sf.2, true⟩
    else ⟨.failJson (uninstallFailMsg sf.2), sf.1, sf.2, false⟩

/-- A host answer table on which one package removal fails: `TIVsm-BA` and
`gskssl64` are installed, removing the former succeeds, removing the latter
fails with stderr `boom`, every other package is not installed. -/
def uninstallEnvC : UninstallEnv :=
  ⟨fun cmd =>
    if cmd = "rpm -q TIVsm-BA".toList then (0, [], [])
    else if cmd = "rpm -q gskssl64".toList then (0, [], [])
    else if cmd = "rpm -e TIVsm-BA".toList then (0, [], [])
    else if cmd = "rpm -e gskssl64".toList then (1, [], "boom".toList)
    else (1, [], [])⟩

/-! ## Lifecycle Orchestrators
(`orchestrations/ORCH_ba_serverinstall.py` 33-200, `sp_server.py` 338-478) -/

/-- Oracle for one `ORCH_BA_SERVER_INSTALL` run: the answers of the host
boundaries it consults (`ba_is_installed_by_fs`, `fs_remove_tree` /
`fs_ensure_dir`, `artifacts_find_best` as `(path, version)`,
`ba_version_read`, `_deploy`, `_verify`, `_previous_artifact`, and the
`_deploy` outcome inside `_rollback`). -/
structure OrchEnv where
  installedByFs : Bool
  removeTreeOk : Bool
  ensureDirOk : Bool
  artifact : Option (List Char × List Char)
  currentVersion : Option (List Char)
  deployOk : Bool
  verifyOk : Bool
  prevArtifact : Option (List Char × List Char)
  rollbackDeployOk : Bool
deriving DecidableEq, Repr

/-- Outcome of an orchestration entry point: the returned boolean plus how
many times `_deploy` ran (main path and rollback redeploy). -/
structure OrchOutcome where
  ok : Bool
  deployAttempts : Nat
deriving DecidableEq, Repr

/-- `ORCH_BA_SERVER_INSTALL._uninstall` (lines 109-119). -/
def orchUninstall (env : OrchEnv) : Bool :=
  if !env.installedByFs then true else env.removeTreeOk

/-- `ORCH_BA_SERVER_INSTALL._rollback` (lines 170-183): redeploy the
second-newest artifact when one exists (the remove/ensure results are
ignored by the code). -/
def orchRollback (env : OrchEnv) : Bool × Nat :=
  match env.prevArtifact with
  | none => (false, 0)
  | some _ => (env.rollbackDeployOk, 1)

/-- `ORCH_BA_SERVER_INSTALL._upgrade` (lines 78-107): no candidate artifact
is a no-op success before anything destructive happens. -/
def orchUpgrade (env : OrchEnv) : OrchOutcome :=
  match env.artifact with
  | none => ⟨true, 0⟩
  | some (_, candidate) =>
    if !(version_is_newer env.currentVersion candidate) then ⟨true, 0⟩
    else if !(orchUninstall env) then ⟨false, 0⟩
    else if !(env.removeTreeOk && env.ensureDirOk) then ⟨false, 0⟩
    else if !env.deployOk then ⟨false, 1 + (orchRollback env).2⟩
    else if !env.verifyOk then ⟨false, 1 + (orchRollback env).2⟩
    else ⟨true, 1⟩

/-- `ORCH_BA_SERVER_INSTALL._install` (lines 48-76): an existing install
redirects to `_upgrade`; otherwise prepare the directory, resolve the
artifact (`None` is fatal), deploy and verify, rolling back on failure. -/
def orchInstall (env : OrchEnv) : OrchOutcome :=
  if env.installedByFs then orchUpgrade env
  else if !(env.removeTreeOk && env.ensureDirOk) then ⟨false, 0⟩
  else
    match env.artifact with
    | none => ⟨false, 0⟩
    | some _ =>
      if !env.deployOk then ⟨false, 1 + (orchRollback env).2⟩
      else if !env.verifyOk then ⟨false, 1 + (orchRollback env).2⟩
      else ⟨true, 1⟩

/-- Oracle for one `BA_SERVER_SETUP` run in `sp_server.py`: the
`ba_is_installed` status and package map, the directory-preparation and
`find_installer` outcomes, the `--newversion` argument, the `_deploy`
outcome, and the `_uninstall` sub-flow outcome (abstracted as one boolean;
it performs no deploy). -/
structure SpSrvEnv where
  installStatus : Bool
  installedpackages : List (List Char × List Char)
  removeTreeOk : Bool
  ensureDirOk : Bool
  artifactStatus : Bool
  newversion : Option (List Char)
  deployOk : Bool
  uninstallOk : Bool
deriving DecidableEq, Repr

/-- `BA_SERVER_SETUP._install` (`sp_server.py` 353-390): the installed-state
query is only logged (the redirect to upgrade is commented out); a
`find_installer` failure status is returned as the result, before any
deploy.  The `_rollback` call after a failed deploy does not change the
returned value. -/
def spInstall (env : SpSrvEnv) : OrchOutcome :=
  if !(env.removeTreeOk && env.ensureDirOk) then ⟨false, 0⟩
  else if !env.artifactStatus then ⟨false, 0⟩
  else if !env.deployOk then ⟨false, 1⟩
  else ⟨true, 1⟩

/-- `BA_SERVER_SETUP._upgrade` (`sp_server.py` 392-441): requires an
installed component and a current version; a `find_installer` failure status
returns `False`; only then is the version comparison made (raising
`TypeError` when `--newversion` was not given, since
`version_parse(None)` feeds `None` to `re.split`). -/
def spUpgrade (env : SpSrvEnv) (component_id : List Char) :
    Except (List Char) OrchOutcome :=
  if !env.installStatus then .ok ⟨false, 0⟩
  else
    match dictGet env.installedpackages component_id with
    | none => .ok ⟨false, 0⟩
    | some current =>
      if !env.artifactStatus then .ok ⟨false, 0⟩
      else
        match env.newversion with
        | none => .error "TypeError: version_parse applied to None".toList
        | some cand =>
          if !(version_is_newer (some current) cand) then .ok ⟨true, 0⟩
          else if !env.uninstallOk then .ok ⟨false, 0⟩
          else if !(env.removeTreeOk && env.ensureDirOk) then .ok ⟨false, 0⟩
          else if !env.deployOk then .ok ⟨false, 1⟩
          else .ok ⟨true, 1⟩

/-! ## Order and sorting lemmas -/

theorem insertAsc_eq_cons {α : Type} {lt : α → α → Bool} {x y : α} (ys : List α)
    (hxy : lt x y = true) : insertAsc lt x (y :: ys) = x :: y :: ys := by
  simp [insertAsc, hxy]

theorem insertAsc_eq_skip {α : Type} {lt : α → α → Bool} {x y : α} (ys : List α)
    (hxy : lt x y = false) : insertAsc lt x (y :: ys) = y :: insertAsc lt x ys := by
  simp [insertAsc, hxy]

theorem insertAsc_perm {α : Type} (lt : α → α → Bool) (x : α) :
    ∀ l : List α, (insertAsc lt x l).Perm (x :: l)
  | [] => List.Perm.refl _
  | y :: ys => by
    cases hxy : lt x y with
    | true => rw [insertAsc_eq_cons ys hxy]
    | false =>
      rw [insertAsc_eq_skip ys hxy]
      exact ((insertAsc_perm lt x ys).cons y).trans (List.Perm.swap x y ys)

theorem sortAsc_foldl_perm {α : Type} (lt : α → α → Bool) :
    ∀ (l acc : List α),
      (l.foldl (fun acc x => insertAsc lt x acc) acc).Perm (acc ++ l)
  | [], acc => by simp
  | x :: xs, acc => by
    simp only [List.foldl]
    refine (sortAsc_foldl_perm lt xs (insertAsc lt x acc)).trans ?_
    refine ((insertAsc_perm lt x acc).append_right xs).trans ?_
    exact List.perm_middle.symm

theorem sortAsc_perm {α : Type} (lt : α → α → Bool) (l : List α) :
    (sortAsc lt l).Perm l := by
  simpa using sortAsc_foldl_perm lt l []

theorem pairwise_insertAsc {α : Type} {lt : α → α → Bool}
    (hasym : ∀ a b, lt a b = true → lt b a = false)
    (htrans : ∀ a b c, lt a b = true → lt b c = true → lt a c = true)
    (x : α) :
    ∀ {l : List α}, l.Pairwise (fun a b => lt b a = false) →
      (insertAsc lt x l).Pairwise (fun a b => lt b a = false) := by
  intro l
  induction l with
  | nil => intro _; simp [insertAsc]
  | cons y ys ih =>
    intro h
    rcases List.pairwise_cons.mp h with ⟨hy, hys⟩
    cases hxy : lt x y with
    | true =>
      rw [insertAsc_eq_cons ys hxy]
      refine List.pairwise_cons.mpr ⟨?_, h⟩
      intro w hw
      rcases List.mem_cons.mp hw with rfl | hw2
      · exact hasym x w hxy
      · cases hwx : lt w x with
        | false => rfl
        | true => exact absurd (htrans w x y hwx hxy) (by simp [hy w hw2])
    | false =>
      rw [insertAsc_eq_skip ys hxy]
      refine List.pairwise_cons.mpr ⟨?_, ih hys⟩
      intro w hw
      rcases List.mem_cons.mp ((insertAsc_perm lt x ys).mem_iff.mp hw) with rfl | hw2
      · exact hxy
      · exact hy w hw2

theorem pairwise_sortAsc_aux {α : Type} {lt : α → α → Bool}
    (hasym : ∀ a b, lt a b = true → lt b a = false)
    (htrans : ∀ a b c, lt a b = true → lt b c = true → lt a c = true) :
    ∀ (l acc : List α), acc.Pairwise (fun a b => lt b a = false) →
      (l.foldl (fun acc x => insertAsc lt x acc) acc).Pairwise (fun a b => lt b a = false)
  | [], _, h => h
  | x :: xs, _, h =>
    pairwise_sortAsc_aux hasym htrans xs _ (pairwise_insertAsc hasym htrans x h)

theorem pairwise_sortAsc {α : Type} {lt : α → α → Bool}
    (hasym : ∀ a b, lt a b = true → lt b a = false)
    (htrans : ∀ a b c, lt a b = true → lt b c = true → lt a c = true)
    (l : List α) :
    (sortAsc lt l).Pairwise (fun a b => lt b a = false) :=
  pairwise_sortAsc_aux hasym htrans l [] (List.Pairwise.nil)

theorem pairwise_headD_min {α : Type} {lt : α → α → Bool}
    (hirr : ∀ a, lt a a = false) {l : List α}
    (h : l.Pairwise (fun a b => lt b a = false)) (hne : l ≠ []) (d : α) :
    ∀ y ∈ l, lt y (l.headD d) = false := by
  cases l with
  | nil => exact absurd rfl hne
  | cons a as =>
    intro y hy
    rcases List.mem_cons.mp hy with rfl | hy2
    · exact hirr y
    · exact (List.pairwise_cons.mp h).1 y hy2

theorem getLastD_mem {α : Type} :
    ∀ (l : List α) (d : α), l ≠ [] → l.getLastD d ∈ l
  | [b], d, _ => by simp [List.getLastD_cons, List.getLastD_nil]
  | b :: c :: t, d, _ => by
    rw [List.getLastD_cons]
    exact List.mem_cons_of_mem b (getLastD_mem (c :: t) b (by simp))

theorem pairwise_getLastD_max {α : Type} {lt : α → α → Bool}
    (hirr : ∀ a, lt a a = false) :
    ∀ (l : List α) (d : α), l.Pairwise (fun a b => lt b a = false) → l ≠ [] →
      ∀ y ∈ l, lt (l.getLastD d) y = false
  | [], _, _, hne => absurd rfl hne
  | [a], d, _, _ => by
    intro y hy
    rcases List.mem_cons.mp hy with rfl | h
    · simpa [List.getLastD_cons, List.getLastD_nil] using hirr y
    · simp at h
  | a :: b :: t, d, h, _ => by
    intro y hy
    rcases List.pairwise_cons.mp h with ⟨ha, htail⟩
    rw [List.getLastD_cons]
    rcases List.mem_cons.mp hy with rfl | hy2
    · exact ha _ (getLastD_mem (b :: t) y (by simp))
    · exact pairwise_getLastD_max hirr (b :: t) a htail (by simp) y hy2

theorem pyListLt_irrefl {α : Type} {lt : α → α → Bool}
    (hirr : ∀ a, lt a a = false) :
    ∀ l, pyListLt lt l l = false
  | [] => rfl
  | a :: as => by simp [pyListLt, hirr a, pyListLt_irrefl hirr as]

theorem pyListLt_trans {α : Type} {lt : α → α → Bool}
    (htight : ∀ a b, lt a b = false → lt b a = false → a = b)
    (htrans : ∀ a b c, lt a b = true → lt b c = true → lt a c = true) :
    ∀ l1 l2 l3, pyListLt lt l1 l2 = true → pyListLt lt l2 l3 = true →
      pyListLt lt l1 l3 = true
  | _, [], _, h1, _ => by simp [pyListLt] at h1
  | _, _ :: _, [], _, h2 => by simp [pyListLt] at h2
  | [], b :: bs, c :: cs, _, _ => rfl
  | a :: as, b :: bs, c :: cs, h1, h2 => by
    cases hab : lt a b with
    | true =>
      cases hbc : lt b c with
      | true => simp [pyListLt, htrans a b c hab hbc]
      | false =>
        cases hcb : lt c b with
        | true => simp [pyListLt, hbc, hcb] at h2
        | false =>
          have hbceq : b = c := htight b c hbc hcb
          subst hbceq
          simp [pyListLt, hab]
    | false =>
      cases hba : lt b a with
      | true => simp [pyListLt, hab, hba] at h1
      | false =>
        have habeq : a = b := htight a b hab hba
        subst habeq
        simp only [pyListLt, hab, Bool.false_eq_true, if_false] at h1
        cases hac : lt a c with
        | true => simp [pyListLt, hac]
        | false =>
          cases hca : lt c a with
          | true => simp [pyListLt, hac, hca] at h2
          | false =>
            simp only [pyListLt, hac, hca, Bool.false_eq_true, if_false] at h2 ⊢
            exact pyListLt_trans htight htrans as bs cs h1 h2

theorem pyListLt_asym {α : Type} {lt : α → α → Bool}
    (hirr : ∀ a, lt a a = false)
    (htight : ∀ a b, lt a b = false → lt b a = false → a = b)
    (htrans : ∀ a b c, lt a b = true → lt b c = true → lt a c = true)
    (l1 l2 : List α) :
    pyListLt lt l1 l2 = true → pyListLt lt l2 l1 = false := by
  intro h
  cases h2 : pyListLt lt l2 l1 with
  | false => rfl
  | true =>
    exact absurd (pyListLt_trans htight htrans l1 l2 l1 h h2)
      (by simp [pyListLt_irrefl hirr l1])

theorem pyListLt_tight {α : Type} {lt : α → α → Bool}
    (htight : ∀ a b, lt a b = false → lt b a = false → a = b) :
    ∀ l1 l2, pyListLt lt l1 l2 = false → pyListLt lt l2 l1 = false → l1 = l2
  | [], [], _, _ => rfl
  | [], _ :: _, h1, _ => by simp [pyListLt] at h1
  | _ :: _, [], _, h2 => by simp [pyListLt] at h2
  | a :: as, b :: bs, h1, h2 => by
    cases hab : lt a b with
    | true => simp [pyListLt, hab] at h1
    | false =>
      cases hba : lt b a with
      | true => simp [pyListLt, hba] at h2
      | false =>
        have habeq : a = b := htight a b hab hba
        subst habeq
        simp only [pyListLt, hab, Bool.false_eq_true, if_false] at h1 h2
        rw [pyListLt_tight htight as bs h1 h2]

theorem charLtB_irrefl (c : Char) : charLtB c c = false := by simp [charLtB]

theorem charLtB_trans (a b c : Char) :
    charLtB a b = true → charLtB b c = true → charLtB a c = true := by
  simp only [charLtB, decide_eq_true_eq]
  omega

theorem charLtB_tight (c d : Char) :
    charLtB c d = false → charLtB d c = false → c = d := by
  intro h1 h2
  simp only [charLtB, decide_eq_false_iff_not, Nat.not_lt] at h1 h2
  have h3 : c.toNat = d.toNat := by omega
  have h4 : c.val = d.val := UInt32.toNat.inj h3
  cases c with
  | mk cv chv =>
    cases d with
    | mk dv dhv =>
      cases h4
      rfl

theorem pyStrLt_irrefl (s : List Char) : pyStrLt s s = false :=
  pyListLt_irrefl charLtB_irrefl s

theorem pyStrLt_trans (a b c : List Char) :
    pyStrLt a b = true → pyStrLt b c = true → pyStrLt a c = true :=
  pyListLt_trans charLtB_tight charLtB_trans a b c

theorem pyStrLt_asym (a b : List Char) :
    pyStrLt a b = true → pyStrLt b a = false :=
  pyListLt_asym charLtB_irrefl charLtB_tight charLtB_trans a b

theorem pyStrLt_tight (a b : List Char) :
    pyStrLt a b = false → pyStrLt b a = false → a = b :=
  pyListLt_tight charLtB_tight a b

theorem intLtB_irrefl (a : Int) : intLtB a a = false := by simp [intLtB]

theorem intLtB_trans (a b c : Int) :
    intLtB a b = true → intLtB b c = true → intLtB a c = true := by
  simp only [intLtB, decide_eq_true_eq]
  omega

theorem intLtB_tight (a b : Int) :
    intLtB a b = false → intLtB b a = false → a = b := by
  simp only [intLtB, decide_eq_false_iff_not, Int.not_lt]
  omega

theorem tupLt_irrefl (l : List Int) : pyListLt intLtB l l = false :=
  pyListLt_irrefl intLtB_irrefl l

theorem tupLt_trans (a b c : List Int) :
    pyListLt intLtB a b = true → pyListLt intLtB b c = true →
      pyListLt intLtB a c = true :=
  pyListLt_trans intLtB_tight intLtB_trans a b c

theorem tupLt_asym (a b : List Int) :
    pyListLt intLtB a b = true → pyListLt intLtB b a = false :=
  pyListLt_asym intLtB_irrefl intLtB_tight intLtB_trans a b

theorem entryNameLt_irrefl (a : DirEntry) : entryNameLt a a = false :=
  pyStrLt_irrefl a.name

theorem entryNameLt_asym (a b : DirEntry) :
    entryNameLt a b = true → entryNameLt b a = false :=
  pyStrLt_asym a.name b.name

theorem entryNameLt_trans (a b c : DirEntry) :
    entryNameLt a b = true → entryNameLt b c = true → entryNameLt a c = true :=
  pyStrLt_trans a.name b.name c.name

theorem versionedLt_irrefl (a : DirEntry × List Char × List Int) :
    versionedLt a a = false :=
  tupLt_irrefl a.2.2

theorem versionedLt_asym (a b : DirEntry × List Char × List Int) :
    versionedLt a b = true → versionedLt b a = false :=
  tupLt_asym b.2.2 a.2.2

theorem versionedLt_trans (a b c : DirEntry × List Char × List Int) :
    versionedLt a b = true → versionedLt b c = true → versionedLt a c = true :=
  fun h1 h2 => tupLt_trans c.2.2 b.2.2 a.2.2 h2 h1

theorem headD_cons_drop {α : Type} (d : α) :
    ∀ l : List α, l ≠ [] → l = l.headD d :: l.drop 1
  | _ :: _, _ => rfl
  | [], h => absurd rfl h

/-! ## Branch lemmas for `find_installer` -/

theorem find_installer_some_eq (oskey base_dir : List Char) (entries : List DirEntry)
    (ci : Bool) (v : List Char)
    (hne : installerCandidates (installerExt oskey) ci entries ≠ []) :
    find_installer oskey base_dir true entries ci (some v) =
      findInstallerWithVersion v ci (installerCandidates (installerExt oskey) ci entries) := by
  have h1 : (installerCandidates (installerExt oskey) ci entries).isEmpty = false := by
    cases hc : installerCandidates (installerExt oskey) ci entries with
    | nil => exact absurd hc hne
    | cons a l => rfl
  simp [find_installer, h1]

theorem find_installer_none_eq (oskey base_dir : List Char) (entries : List DirEntry)
    (ci : Bool)
    (hne : installerCandidates (installerExt oskey) ci entries ≠ []) :
    find_installer oskey base_dir true entries ci none =
      findInstallerNoVersion (installerCandidates (installerExt oskey) ci entries) := by
  have h1 : (installerCandidates (installerExt oskey) ci entries).isEmpty = false := by
    cases hc : installerCandidates (installerExt oskey) ci entries with
    | nil => exact absurd hc hne
    | cons a l => rfl
  simp [find_installer, h1]

theorem findInstallerWithVersion_empty (v : List Char) (ci : Bool)
    (cands : List DirEntry) (hm : versionMatches v ci cands = []) :
    findInstallerWithVersion v ci cands =
      ⟨false, "No installer found for version ".toList ++ q v ++ ".".toList, none, []⟩ := by
  simp [findInstallerWithVersion, hm]

theorem findInstallerWithVersion_nonempty_eq (v : List Char) (ci : Bool)
    (cands : List DirEntry) (hm : versionMatches v ci cands ≠ []) :
    findInstallerWithVersion v ci cands =
      ⟨true, "Found installer for version ".toList ++ q v ++ ".".toList,
        some (((sortAsc entryNameLt (versionMatches v ci cands)).headD ⟨[], false⟩).name),
        ((sortAsc entryNameLt (versionMatches v ci cands)).drop 1).map (fun e => e.name)⟩ := by
  have h1 : (versionMatches v ci cands).isEmpty = false := by
    cases hc : versionMatches v ci cands with
    | nil => exact absurd hc hm
    | cons a l => rfl
  simp [findInstallerWithVersion, h1]

theorem findInstallerWithVersion_choice (v : List Char) (ci : Bool)
    (cands : List DirEntry) (hm : versionMatches v ci cands ≠ []) :
    ∃ ch, ch ∈ versionMatches v ci cands ∧
      (findInstallerWithVersion v ci cands).status = true ∧
      (findInstallerWithVersion v ci cands).installerfile = some ch.name ∧
      (∀ e ∈ versionMatches v ci cands, pyStrLt e.name ch.name = false) ∧
      (ch.name :: (findInstallerWithVersion v ci cands).other_files).Perm
        ((versionMatches v ci cands).map (fun e => e.name)) := by
  have hperm : (sortAsc entryNameLt (versionMatches v ci cands)).Perm (versionMatches v ci cands) :=
    sortAsc_perm _ _
  have hsne : sortAsc entryNameLt (versionMatches v ci cands) ≠ [] := by
    intro h0
    rw [h0] at hperm
    exact hm (hperm.symm.eq_nil)
  have hcons := headD_cons_drop (⟨[], false⟩ : DirEntry) _ hsne
  refine ⟨(sortAsc entryNameLt (versionMatches v ci cands)).headD ⟨[], false⟩, ?_, ?_, ?_, ?_, ?_⟩
  · refine hperm.mem_iff.mp ?_
    rw [hcons]
    exact List.mem_cons_self _ _
  · rw [findInstallerWithVersion_nonempty_eq v ci cands hm]
  · rw [findInstallerWithVersion_nonempty_eq v ci cands hm]
  · intro e he
    exact pairwise_headD_min entryNameLt_irrefl
      (pairwise_sortAsc entryNameLt_asym entryNameLt_trans _) hsne _
      e (hperm.mem_iff.mpr he)
  · rw [findInstallerWithVersion_nonempty_eq v ci cands hm]
    refine List.Perm.trans ?_ (hperm.map (fun e => e.name))
    rw [hcons]
    simp

theorem findInstallerWithVersion_perm (v : List Char) (ci : Bool)
    {c1 c2 : List DirEntry} (hp : c1.Perm c2) :
    (findInstallerWithVersion v ci c1).installerfile =
      (findInstallerWithVersion v ci c2).installerfile := by
  have hm : (versionMatches v ci c1).Perm (versionMatches v ci c2) := hp.filter _
  by_cases h1 : versionMatches v ci c1 = []
  · have h2 : versionMatches v ci c2 = [] := by
      rw [h1] at hm
      exact hm.symm.eq_nil
    rw [findInstallerWithVersion_empty v ci c1 h1, findInstallerWithVersion_empty v ci c2 h2]
  · have h2 : versionMatches v ci c2 ≠ [] := by
      intro h0
      rw [h0] at hm
      exact h1 hm.eq_nil
    obtain ⟨ch1, hm1, _, hf1, hmin1, _⟩ := findInstallerWithVersion_choice v ci c1 h1
    obtain ⟨ch2, hm2, _, hf2, hmin2, _⟩ := findInstallerWithVersion_choice v ci c2 h2
    rw [hf1, hf2]
    have e1 : pyStrLt ch1.name ch2.name = false := hmin2 ch1 (hm.mem_iff.mp hm1)
    have e2 : pyStrLt ch2.name ch1.name = false := hmin1 ch2 (hm.mem_iff.mpr hm2)
    rw [pyStrLt_tight ch2.name ch1.name e2 e1]

theorem findInstallerNoVersion_versioned_eq (cands : List DirEntry)
    (hv : versionedCandidates cands ≠ []) :
    findInstallerNoVersion cands =
      ⟨true, "Selected latest version ".toList ++
          q (((sortAsc versionedLt (versionedCandidates cands)).headD (⟨[], false⟩, [], [])).2.1),
        some (((sortAsc versionedLt (versionedCandidates cands)).headD (⟨[], false⟩, [], [])).1.name),
        ((sortAsc versionedLt (versionedCandidates cands)).drop 1).map (fun t => t.1.name)⟩ := by
  have h1 : (versionedCandidates cands).isEmpty = false := by
    cases hc : versionedCandidates cands with
    | nil => exact absurd hc hv
    | cons a l => rfl
  simp [findInstallerNoVersion, h1]

theorem findInstallerNoVersion_fallback_eq (cands : List DirEntry)
    (hv : versionedCandidates cands = []) :
    findInstallerNoVersion cands =
      ⟨true, "No version data found; selected last file by name.".toList,
        some ((sortAsc entryNameLt cands).getLastD ⟨[], false⟩).name,
        (sortAsc entryNameLt cands).dropLast.map (fun e => e.name)⟩ := by
  simp [findInstallerNoVersion, hv]

theorem findInstallerNoVersion_versioned_choice (cands : List DirEntry)
    (hv : versionedCandidates cands ≠ []) :
    ∃ ch, ch ∈ versionedCandidates cands ∧
      (findInstallerNoVersion cands).status = true ∧
      (findInstallerNoVersion cands).installerfile = some ch.1.name ∧
      ∀ e ∈ versionedCandidates cands, pyListLt intLtB ch.2.2 e.2.2 = false := by
  have hperm : (sortAsc versionedLt (versionedCandidates cands)).Perm (versionedCandidates cands) :=
    sortAsc_perm _ _
  have hsne : sortAsc versionedLt (versionedCandidates cands) ≠ [] := by
    intro h0
    rw [h0] at hperm
    exact hv (hperm.symm.eq_nil)
  have hcons := headD_cons_drop ((⟨[], false⟩, [], []) : DirEntry × List Char × List Int) _ hsne
  refine ⟨(sortAsc versionedLt (versionedCandidates cands)).headD (⟨[], false⟩, [], []),
    ?_, ?_, ?_, ?_⟩
  · refine hperm.mem_iff.mp ?_
    rw [hcons]
    exact List.mem_cons_self _ _
  · rw [findInstallerNoVersion_versioned_eq cands hv]
  · rw [findInstallerNoVersion_versioned_eq cands hv]
  · intro e he
    exact pairwise_headD_min versionedLt_irrefl
      (pairwise_sortAsc versionedLt_asym versionedLt_trans _) hsne _
      e (hperm.mem_iff.mpr he)

theorem findInstallerNoVersion_fallback_choice (cands : List DirEntry)
    (hc : cands ≠ []) (hv : versionedCandidates cands = []) :
    ∃ ch, ch ∈ cands ∧
      (findInstallerNoVersion cands).status = true ∧
      (findInstallerNoVersion cands).installerfile = some ch.name ∧
      ∀ e ∈ cands, pyStrLt ch.name e.name = false := by
  have hperm : (sortAsc entryNameLt cands).Perm cands := sortAsc_perm _ _
  have hsne : sortAsc entryNameLt cands ≠ [] := by
    intro h0
    rw [h0] at hperm
    exact hc (hperm.symm.eq_nil)
  refine ⟨(sortAsc entryNameLt cands).getLastD ⟨[], false⟩, ?_, ?_, ?_, ?_⟩
  · exact hperm.mem_iff.mp (getLastD_mem _ _ hsne)
  · rw [findInstallerNoVersion_fallback_eq cands hv]
  · rw [findInstallerNoVersion_fallback_eq cands hv]
  · intro e he
    exact pairwise_getLastD_max entryNameLt_irrefl _ _
      (pairwise_sortAsc entryNameLt_asym entryNameLt_trans _) hsne
      e (hperm.mem_iff.mpr he)

theorem findInstallerNoVersion_fallback_perm {c1 c2 : List DirEntry}
    (hp : c1.Perm c2) (h1 : c1 ≠ []) (hv1 : versionedCandidates c1 = []) :
    (findInstallerNoVersion c1).installerfile =
      (findInstallerNoVersion c2).installerfile := by
  have hvp : (versionedCandidates c1).Perm (versionedCandidates c2) := hp.filterMap _
  have hv2 : versionedCandidates c2 = [] := by
    rw [hv1] at hvp
    exact hvp.symm.eq_nil
  have h2 : c2 ≠ [] := by
    intro h0
    rw [h0] at hp
    exact h1 hp.eq_nil
  obtain ⟨ch1, hm1, _, hf1, hmax1⟩ := findInstallerNoVersion_fallback_choice c1 h1 hv1
  obtain ⟨ch2, hm2, _, hf2, hmax2⟩ := findInstallerNoVersion_fallback_choice c2 h2 hv2
  rw [hf1, hf2]
  have e1 : pyStrLt ch2.name ch1.name = false := hmax2 ch1 (hp.mem_iff.mp hm1)
  have e2 : pyStrLt ch1.name ch2.name = false := hmax1 ch2 (hp.mem_iff.mpr hm2)
  rw [pyStrLt_tight ch1.name ch2.name e2 e1]

/-! ## Claim C1 -/

/-- C1 (amended): for every base directory, OS key and directory listing with
at least one candidate file, `find_installer` selects as claim C1 states,
EXCEPT that in the no-version branch the chosen file is only guaranteed to
carry a maximal parsed version tuple — when several candidates tie for the
maximal tuple the Python stable sort keeps directory iteration order and the
earliest-listed maximal candidate wins, so only the explicit-version branch
and the no-parseable-version fallback are independent of iteration order. -/
theorem C1_find_installer_selection (oskey base_dir : List Char)
    (entries : List DirEntry) (ci : Bool)
    (hne : installerCandidates (installerExt oskey) ci entries ≠ []) :
    FindInstallerAmendedP oskey base_dir entries ci := by
  refine ⟨?_, ?_, ?_, ?_, ?_⟩
  · intro v hm
    rw [find_installer_some_eq oskey base_dir entries ci v hne,
        findInstallerWithVersion_empty v ci _ hm]
    exact ⟨rfl, rfl⟩
  · intro v hm
    rw [find_installer_some_eq oskey base_dir entries ci v hne]
    exact findInstallerWithVersion_choice v ci _ hm
  · intro entries2 v hp
    have hcp : (installerCandidates (installerExt oskey) ci entries).Perm
        (installerCandidates (installerExt oskey) ci entries2) := hp.filter _
    have hne2 : installerCandidates (installerExt oskey) ci entries2 ≠ [] := by
      intro h0
      rw [h0] at hcp
      exact hne hcp.eq_nil
    rw [find_installer_some_eq oskey base_dir entries ci v hne,
        find_installer_some_eq oskey base_dir entries2 ci v hne2]
    exact findInstallerWithVersion_perm v ci hcp
  · intro hv
    rw [find_installer_none_eq oskey base_dir entries ci hne]
    exact findInstallerNoVersion_versioned_choice _ hv
  · intro hv
    constructor
    · rw [find_installer_none_eq oskey base_dir entries ci hne]
      exact findInstallerNoVersion_fallback_choice _ hne hv
    · intro entries2 hp
      have hcp : (installerCandidates (installerExt oskey) ci entries).Perm
          (installerCandidates (installerExt oskey) ci entries2) := hp.filter _
      have hne2 : installerCandidates (installerExt oskey) ci entries2 ≠ [] := by
        intro h0
        rw [h0] at hcp
        exact hne hcp.eq_nil
      rw [find_installer_none_eq oskey base_dir entries ci hne,
          find_installer_none_eq oskey base_dir entries2 ci hne2]
      exact findInstallerNoVersion_fallback_perm hcp hne hv

/-- C1 counterexample: two candidate files whose parsed version tuples tie
(`1.2-alpha.bin` and `1.2-beta.bin` both parse to `(1, 2)`).  Reversing the
directory iteration order changes the chosen file, refuting the claim that
in the no-version branch the chosen file is independent of iteration
order. -/
theorem C1_counterexample :
    (find_installer "linux".toList "/arts".toList true
      [⟨"1.2-alpha.bin".toList, true⟩, ⟨"1.2-beta.bin".toList, true⟩]
      false none).installerfile = some "1.2-alpha.bin".toList ∧
    (find_installer "linux".toList "/arts".toList true
      [⟨"1.2-beta.bin".toList, true⟩, ⟨"1.2-alpha.bin".toList, true⟩]
      false none).installerfile = some "1.2-beta.bin".toList :=
  ⟨by decide, by decide⟩

/-- Witness for C1: the amended selection property applied to the spec's own
determinism example (`1.0.0-X-linux.bin`, `1.2.0-X-linux.bin`,
`1.1.5-X-linux.bin`). -/
theorem C1_find_installer_selection_witness :
    installerCandidates (installerExt "linux".toList) false
        [⟨"1.0.0-X-linux.bin".toList, true⟩, ⟨"1.2.0-X-linux.bin".toList, true⟩,
         ⟨"1.1.5-X-linux.bin".toList, true⟩] ≠ [] ∧
      FindInstallerAmendedP "linux".toList "/arts".toList
        [⟨"1.0.0-X-linux.bin".toList, true⟩, ⟨"1.2.0-X-linux.bin".toList, true⟩,
         ⟨"1.1.5-X-linux.bin".toList, true⟩] false :=
  ⟨by decide, C1_find_installer_selection _ _ _ _ (by decide)⟩

/-! ## Claim C2: bridging string segments to the comparisons -/

theorem splitOnCharAux_ne_nil (sep : Char) :
    ∀ (cs acc : List Char), splitOnCharAux sep cs acc ≠ []
  | [], acc => by simp [splitOnCharAux]
  | c :: cs, acc => by
    by_cases h : c = sep
    · simp [splitOnCharAux, h]
    · simpa [splitOnCharAux, h] using splitOnCharAux_ne_nil sep cs (c :: acc)

theorem joinSep_cons (sep x : List Char) (xs : List (List Char)) (h : xs ≠ []) :
    joinSep sep (x :: xs) = x ++ sep ++ joinSep sep xs := by
  cases xs with
  | nil => exact absurd rfl h
  | cons y ys => rfl

theorem splitOnCharAux_join (sep : Char) :
    ∀ (cs acc : List Char),
      joinSep [sep] (splitOnCharAux sep cs acc) = acc.reverse ++ cs
  | [], acc => by simp [splitOnCharAux, joinSep]
  | c :: cs, acc => by
    by_cases h : c = sep
    · subst h
      rw [show splitOnCharAux c (c :: cs) acc = acc.reverse :: splitOnCharAux c cs []
          from by simp [splitOnCharAux],
        joinSep_cons [c] acc.reverse _ (splitOnCharAux_ne_nil c cs []),
        splitOnCharAux_join c cs []]
      simp
    · rw [show splitOnCharAux sep (c :: cs) acc = splitOnCharAux sep cs (c :: acc)
          from by simp [splitOnCharAux, h],
        splitOnCharAux_join sep cs (c :: acc)]
      simp

theorem splitOnChar_join (sep : Char) (cs : List Char) :
    joinSep [sep] (splitOnChar sep cs) = cs := by
  simpa using splitOnCharAux_join sep cs []

theorem listToNat?_props {p : List Char} {a : Nat} (h : listToNat? p = some a) :
    p ≠ [] ∧ p.all Char.isDigit = true := by
  cases hcc : (!p.isEmpty && p.all Char.isDigit) with
  | false =>
    unfold listToNat? at h
    rw [hcc] at h
    simp at h
  | true =>
    have h2 : p.isEmpty = false ∧ p.all Char.isDigit = true := by simpa using hcc
    refine ⟨?_, h2.2⟩
    intro he
    rw [he] at h2
    simp at h2

theorem mapNat?_cons_elim {p : List Char} {pt : List (List Char)} {as : List Nat}
    (h : mapNat? (p :: pt) = some as) :
    ∃ a rest, listToNat? p = some a ∧ mapNat? pt = some rest ∧ as = a :: rest := by
  unfold mapNat? at h
  cases hp : listToNat? p with
  | none =>
    rw [hp] at h
    simp at h
  | some a =>
    cases hpt : mapNat? pt with
    | none =>
      rw [hp, hpt] at h
      simp at h
    | some rest =>
      rw [hp, hpt] at h
      simp only [Option.some.injEq] at h
      exact ⟨a, rest, rfl, rfl, h.symm⟩

theorem mapNat?_props :
    ∀ (ps : List (List Char)) (as : List Nat), mapNat? ps = some as →
      ∀ p ∈ ps, p ≠ [] ∧ p.all Char.isDigit = true
  | [], _, _ => by simp
  | p :: pt, as, h => by
    obtain ⟨a, rest, hp, hpt, rfl⟩ := mapNat?_cons_elim h
    intro x hx
    rcases List.mem_cons.mp hx with rfl | hx2
    · exact listToNat?_props hp
    · exact mapNat?_props pt rest hpt x hx2

theorem all_alnum_of_digits (p : List Char) (h : p.all Char.isDigit = true) :
    p.all isAlnumA = true := by
  rw [List.all_eq_true] at h ⊢
  intro c hc
  simp [isAlnumA, h c hc]

theorem alnumRunsAux_through :
    ∀ (p : List Char), p.all isAlnumA = true → ∀ (rest acc : List Char),
      alnumRunsAux (p ++ rest) acc = alnumRunsAux rest (p.reverse ++ acc)
  | [], _, rest, acc => by simp
  | c :: pt, hp, rest, acc => by
    have hc : isAlnumA c = true ∧ pt.all isAlnumA = true := by simpa using hp
    rw [List.cons_append,
      show alnumRunsAux (c :: (pt ++ rest)) acc = alnumRunsAux (pt ++ rest) (c :: acc)
        from by simp [alnumRunsAux, hc.1],
      alnumRunsAux_through pt hc.2 rest (c :: acc)]
    simp

theorem alnumRunsAux_sep (rest acc : List Char) (hacc : acc ≠ []) :
    alnumRunsAux ('.' :: rest) acc = acc.reverse :: alnumRunsAux rest [] := by
  have h2 : acc.isEmpty = false := by
    cases acc with
    | nil => exact absurd rfl hacc
    | cons a l => rfl
  simp [alnumRunsAux, show isAlnumA '.' = false from by decide, h2]

theorem alnumRunsAux_done (acc : List Char) (hacc : acc ≠ []) :
    alnumRunsAux [] acc = [acc.reverse] := by
  have h2 : acc.isEmpty = false := by
    cases acc with
    | nil => exact absurd rfl hacc
    | cons a l => rfl
  simp [alnumRunsAux, h2]

theorem alnumRuns_join :
    ∀ (ps : List (List Char)), ps ≠ [] →
      (∀ p ∈ ps, p ≠ [] ∧ p.all isAlnumA = true) →
      alnumRuns (joinSep ['.'] ps) = ps
  | [], h, _ => absurd rfl h
  | [p], _, h => by
    obtain ⟨hne, hall⟩ := h p (by simp)
    have h1 : alnumRuns (joinSep ['.'] [p]) = alnumRunsAux (p ++ []) [] := by
      simp [alnumRuns, joinSep]
    rw [h1, alnumRunsAux_through p hall [] [],
      alnumRunsAux_done _ (by simpa using hne)]
    simp
  | p :: p2 :: pt, _, h => by
    obtain ⟨hne, hall⟩ := h p (by simp)
    have h1 : joinSep ['.'] (p :: p2 :: pt) = p ++ ('.' :: joinSep ['.'] (p2 :: pt)) := by
      rw [joinSep_cons ['.'] p (p2 :: pt) (by simp)]
      simp
    rw [alnumRuns, h1, alnumRunsAux_through p hall _ [],
      List.append_nil, alnumRunsAux_sep _ _ (by simpa using hne), List.reverse_reverse]
    have ih := alnumRuns_join (p2 :: pt) (by simp)
      (fun x hx => h x (List.mem_cons_of_mem p hx))
    rw [show alnumRuns (joinSep ['.'] (p2 :: pt)) =
        alnumRunsAux (joinSep ['.'] (p2 :: pt)) [] from rfl] at ih
    rw [ih]

theorem filterMap_digit_pieces :
    ∀ (ps : List (List Char)) (as : List Nat), mapNat? ps = some as →
      ps.filterMap (fun p =>
        if pyIsDigit p then some (VTok.num ((listToNat? p).getD 0))
        else if !p.isEmpty then some (.str p)
        else none) = as.map VTok.num
  | [], as, h => by
    unfold mapNat? at h
    simp only [Option.some.injEq] at h
    subst h
    rfl
  | p :: pt, as, h => by
    obtain ⟨a, rest, hp, hpt, rfl⟩ := mapNat?_cons_elim h
    obtain ⟨hne, hdig⟩ := listToNat?_props hp
    have h1 : p.isEmpty = false := by
      cases p with
      | nil => exact absurd rfl hne
      | cons c l => rfl
    have hpd : pyIsDigit p = true := by simp [pyIsDigit, h1, hdig]
    simp only [List.filterMap_cons, hpd, if_true, hp, Option.getD_some, List.map_cons]
    rw [filterMap_digit_pieces pt rest hpt]

theorem pyIntOfChars_of_listToNat (p : List Char) (a : Nat)
    (h : listToNat? p = some a) : pyIntOfChars p = some (Int.ofNat a) := by
  cases p with
  | nil =>
    unfold listToNat? at h
    simp at h
  | cons c rest =>
    have hprops := listToNat?_props h
    have hd : c.isDigit = true ∧ rest.all Char.isDigit = true := by
      simpa using hprops.2
    have hne1 : c ≠ '-' := by
      intro he
      rw [he] at hd
      exact absurd hd.1 (by decide)
    have hne2 : c ≠ '+' := by
      intro he
      rw [he] at hd
      exact absurd hd.1 (by decide)
    simp [pyIntOfChars, hne1, hne2, h]

theorem map_pyInt_digit_pieces :
    ∀ (ps : List (List Char)) (as : List Nat), mapNat? ps = some as →
      ps.map (fun p => (pyIntOfChars p).getD 0) = as.map Int.ofNat
  | [], as, h => by
    unfold mapNat? at h
    simp only [Option.some.injEq] at h
    subst h
    rfl
  | p :: pt, as, h => by
    obtain ⟨a, rest, hp, hpt, rfl⟩ := mapNat?_cons_elim h
    simp only [List.map_cons, pyIntOfChars_of_listToNat p a hp, Option.getD_some,
      List.cons.injEq]
    exact ⟨trivial, map_pyInt_digit_pieces pt rest hpt⟩

theorem version_parse_of_segs (A : List Char) (as : List Nat)
    (h : segsOf A = some as) : version_parse A = as.map VTok.num := by
  have hps : mapNat? (splitOnChar '.' A) = some as := h
  have hne : splitOnChar '.' A ≠ [] := splitOnCharAux_ne_nil '.' A []
  have hprops := mapNat?_props _ _ hps
  have hjoin : joinSep ['.'] (splitOnChar '.' A) = A := splitOnChar_join '.' A
  have hruns : alnumRuns A = splitOnChar '.' A := by
    conv_lhs => rw [← hjoin]
    exact alnumRuns_join _ hne
      (fun p hp => ⟨(hprops p hp).1, all_alnum_of_digits p (hprops p hp).2⟩)
  unfold version_parse
  rw [hruns]
  exact filterMap_digit_pieces _ _ hps

theorem parse_version_dotted_of_segs (A : List Char) (as : List Nat)
    (h : segsOf A = some as) : parse_version_dotted A = as.map Int.ofNat := by
  unfold parse_version_dotted
  exact map_pyInt_digit_pieces _ _ h

theorem pyListLt_map_num :
    ∀ (xs ys : List Nat),
      pyListLt vtokLt (xs.map VTok.num) (ys.map VTok.num) =
        pyListLt (fun a b => decide (a < b)) xs ys
  | xs, [] => by cases xs <;> rfl
  | [], _ :: _ => rfl
  | x :: xs, y :: ys => by
    simp only [List.map_cons, pyListLt, vtokLt]
    rw [pyListLt_map_num xs ys]

theorem pyListLt_map_int :
    ∀ (xs ys : List Nat),
      pyListLt intLtB (xs.map Int.ofNat) (ys.map Int.ofNat) =
        pyListLt (fun a b => decide (a < b)) xs ys
  | xs, [] => by cases xs <;> rfl
  | [], _ :: _ => rfl
  | x :: xs, y :: ys => by
    have hxy : intLtB (Int.ofNat x) (Int.ofNat y) = decide (x < y) := by
      rw [intLtB, decide_eq_decide]
      exact Int.ofNat_lt
    have hyx : intLtB (Int.ofNat y) (Int.ofNat x) = decide (y < x) := by
      rw [intLtB, decide_eq_decide]
      exact Int.ofNat_lt
    simp only [List.map_cons, pyListLt, hxy, hyx]
    rw [pyListLt_map_int xs ys]

theorem gtAtFirstDiff_nil : ¬ gtAtFirstDiff [] [] := by
  rintro ⟨p, a, b, as2, bs2, h1, _, _⟩
  cases p <;> simp at h1

theorem gtAtFirstDiff_cons_same (a : Nat) (as bs : List Nat) :
    gtAtFirstDiff (a :: as) (a :: bs) ↔ gtAtFirstDiff as bs := by
  constructor
  · rintro ⟨p, x, y, as2, bs2, h1, h2, hyx⟩
    cases p with
    | nil =>
      simp only [List.nil_append, List.cons.injEq] at h1 h2
      omega
    | cons q pt =>
      simp only [List.cons_append, List.cons.injEq] at h1 h2
      exact ⟨pt, x, y, as2, bs2, h1.2, h2.2, hyx⟩
  · rintro ⟨p, x, y, as2, bs2, h1, h2, hyx⟩
    exact ⟨a :: p, x, y, as2, bs2, by simp [h1], by simp [h2], hyx⟩

theorem natListLt_iff_gtAtFirstDiff :
    ∀ (as bs : List Nat), as.length = bs.length →
      (pyListLt (fun a b => decide (a < b)) bs as = true ↔ gtAtFirstDiff as bs)
  | [], [], _ => by
    constructor
    · intro h
      simp [pyListLt] at h
    · intro h
      exact absurd h gtAtFirstDiff_nil
  | [], _ :: _, h => by simp at h
  | _ :: _, [], h => by simp at h
  | a :: as, b :: bs, hlen => by
    by_cases hba : b < a
    · have hL : pyListLt (fun a b => decide (a < b)) (b :: bs) (a :: as) = true := by
        simp [pyListLt, hba]
      rw [hL]
      exact iff_of_true rfl ⟨[], a, b, as, bs, rfl, rfl, hba⟩
    · by_cases hab : a < b
      · have hL : pyListLt (fun a b => decide (a < b)) (b :: bs) (a :: as) = false := by
          simp [pyListLt, hba, hab]
        rw [hL]
        refine iff_of_false (by simp) ?_
        rintro ⟨p, x, y, as2, bs2, h1, h2, hyx⟩
        cases p with
        | nil =>
          simp only [List.nil_append, List.cons.injEq] at h1 h2
          omega
        | cons q pt =>
          simp only [List.cons_append, List.cons.injEq] at h1 h2
          omega
      · have heq : a = b := by omega
        subst heq
        have hL : pyListLt (fun a b => decide (a < b)) (a :: bs) (a :: as) =
            pyListLt (fun a b => decide (a < b)) bs as := by
          simp [pyListLt]
        rw [hL, gtAtFirstDiff_cons_same a as bs]
        exact natListLt_iff_gtAtFirstDiff as bs (by simpa using hlen)

/-- C2 (confirmed): for dotted version strings A and B whose segments are the
non-negative integers `as` / `bs`, with equal segment counts, both comparison
mechanisms of the code — `version_is_newer` (via the token-based
`version_parse`) and Python tuple `>` on `_parse_version` results — order A
strictly above B exactly when, at the first differing position, A's segment
is numerically greater. -/
theorem C2_version_ordering (A B : List Char) (as bs : List Nat)
    (hA : segsOf A = some as) (hB : segsOf B = some bs)
    (hlen : as.length = bs.length) :
    (version_is_newer (some B) A = true ↔ gtAtFirstDiff as bs) ∧
    (pyListLt intLtB (parse_version_dotted B) (parse_version_dotted A) = true ↔
      gtAtFirstDiff as bs) := by
  have hBne : B.isEmpty = false := by
    cases B with
    | nil => simp [segsOf, splitOnChar, splitOnCharAux, mapNat?, listToNat?] at hB
    | cons c l => rfl
  constructor
  · rw [show version_is_newer (some B) A =
        (if B.isEmpty then true
         else pyListLt vtokLt (version_parse B) (version_parse A)) from rfl,
      if_neg (by simp [hBne]),
      version_parse_of_segs A as hA, version_parse_of_segs B bs hB, pyListLt_map_num]
    exact natListLt_iff_gtAtFirstDiff as bs hlen
  · rw [parse_version_dotted_of_segs A as hA, parse_version_dotted_of_segs B bs hB,
      pyListLt_map_int]
    exact natListLt_iff_gtAtFirstDiff as bs hlen

/-- Witness for C2: both of the spec's example orderings, obtained by
applying `C2_version_ordering` at `"2.1.0" > "2.0.9"` and
`"1.10.0" > "1.9.0"`. -/
theorem C2_version_ordering_witness :
    (segsOf "2.1.0".toList = some [2, 1, 0] ∧ segsOf "2.0.9".toList = some [2, 0, 9]) ∧
    version_is_newer (some "2.0.9".toList) "2.1.0".toList = true ∧
    version_is_newer (some "1.9.0".toList) "1.10.0".toList = true :=
  ⟨⟨by decide, by decide⟩,
    (C2_version_ordering "2.1.0".toList "2.0.9".toList [2, 1, 0] [2, 0, 9]
      (by decide) (by decide) rfl).1.mpr ⟨[2], 1, 0, [0], [9], rfl, rfl, by decide⟩,
    (C2_version_ordering "1.10.0".toList "1.9.0".toList [1, 10, 0] [1, 9, 0]
      (by decide) (by decide) rfl).1.mpr ⟨[1], 10, 9, [0], [0], rfl, rfl, by decide⟩⟩


/-! ## Claim C3: Platform Key Resolver -/

/-- C3 counterexample: the resolver maps family `unix` to `"unix"`, not
`"aix"`, and maps a Linux host with distro id `oraclelinux` to `"linux"`,
not `"rhel"` (the set the code checks omits `oraclelinux`). -/
theorem C3_os_oskey_counterexample :
    os_oskey ⟨some "unix".toList, none⟩ ≠ "aix".toList ∧
    os_oskey ⟨some "Linux".toList, some "oraclelinux".toList⟩ ≠ "rhel".toList :=
  ⟨by decide, by decide⟩

/-- C3 (amended): the Platform Key Resolver compares the family
case-insensitively and equals the amended rule table: windows → "windows";
linux with distro id in {rhel, centos, rocky, almalinux} → "rhel"; any other
linux distro id → "linux"; aix → "aix"; any other family (unix included) →
the lowercased family string, or "unknown" when empty.  It is total by
construction: every input reaches one of these returns. -/
theorem C3_os_oskey_amended (f : OsFacts) : os_oskey f = osKeyAmendedSpec f := by
  simp only [os_oskey, osKeyAmendedSpec]
  split_ifs <;> first | rfl | tauto

/-! ## Claim C4: artifact-not-found asymmetry -/

/-- C4 counterexample: with an installed component, a current version on
record and directory preparation succeeding, `BA_SERVER_SETUP._upgrade`
returns `False` when `find_installer` reports no artifact — an error, not
the claimed no-op success; and `ORCH_BA_SERVER_INSTALL._install` on a host
with an existing install redirects to `_upgrade` and returns `True` on
no-artifact — not the claimed failure. -/
theorem C4_counterexample :
    (spUpgrade ⟨true, [("com.tivoli.dsm.server".toList, "8.1.0.0".toList)], true, true,
        false, some "8.2.0.0".toList, true, true⟩
      "com.tivoli.dsm.server".toList).toOption = some ⟨false, 0⟩ ∧
    orchInstall ⟨true, true, true, none, some "1.0".toList, true, true, none, true⟩ =
      ⟨true, 0⟩ :=
  ⟨rfl, rfl⟩

/-- C4 (amended): when the artifact resolver reports nothing, neither
orchestration deploys anything; in the ORCH orchestration `_upgrade` is a
no-op success and `_install` fails when nothing is installed (with an
existing install it redirects to `_upgrade` and hence no-op succeeds), while
in the `sp_server.py` orchestration both `_install` and `_upgrade` report
failure. -/
theorem C4_artifact_not_found_asymmetry (env : OrchEnv) (senv : SpSrvEnv)
    (cid : List Char) (hOrch : env.artifact = none)
    (hSp : senv.artifactStatus = false) :
    orchUpgrade env = ⟨true, 0⟩ ∧
    (env.installedByFs = false → orchInstall env = ⟨false, 0⟩) ∧
    (env.installedByFs = true → orchInstall env = ⟨true, 0⟩) ∧
    spInstall senv = ⟨false, 0⟩ ∧
    spUpgrade senv cid = .ok ⟨false, 0⟩ := by
  have hup : orchUpgrade env = ⟨true, 0⟩ := by
    unfold orchUpgrade
    rw [hOrch]
  refine ⟨hup, ?_, ?_, ?_, ?_⟩
  · intro hin
    unfold orchInstall
    rw [hin, hOrch]
    by_cases hprep : (env.removeTreeOk && env.ensureDirOk) = true
    · simp [hprep]
    · simp [hprep]
  · intro hin
    unfold orchInstall
    rw [hin]
    simp [hup]
  · unfold spInstall
    rw [hSp]
    by_cases hprep : (senv.removeTreeOk && senv.ensureDirOk) = true
    · simp [hprep]
    · simp [hprep]
  · unfold spUpgrade
    by_cases hi : senv.installStatus = true
    · cases hg : dictGet senv.installedpackages cid with
      | none => simp [hi, hg]
      | some cur => simp [hi, hg, hSp]
    · simp [hi]

/-- Witness for C4: the amended asymmetry at a concrete pair of
environments with no artifact available. -/
theorem C4_artifact_not_found_asymmetry_witness :
    (⟨true, true, true, none, some "1.0".toList, true, true, none, true⟩ : OrchEnv).artifact
        = none ∧
    (⟨true, [("cid".toList, "8.1.0".toList)], true, true, false, some "9.0".toList,
        true, true⟩ : SpSrvEnv).artifactStatus = false ∧
    (orchUpgrade ⟨true, true, true, none, some "1.0".toList, true, true, none, true⟩ =
        ⟨true, 0⟩ ∧
      ((⟨true, true, true, none, some "1.0".toList, true, true, none, true⟩ : OrchEnv).installedByFs = false →
        orchInstall ⟨true, true, true, none, some "1.0".toList, true, true, none, true⟩ =
          ⟨false, 0⟩) ∧
      ((⟨true, true, true, none, some "1.0".toList, true, true, none, true⟩ : OrchEnv).installedByFs = true →
        orchInstall ⟨true, true, true, none, some "1.0".toList, true, true, none, true⟩ =
          ⟨true, 0⟩) ∧
      spInstall ⟨true, [("cid".toList, "8.1.0".toList)], true, true, false,
          some "9.0".toList, true, true⟩ = ⟨false, 0⟩ ∧
      spUpgrade ⟨true, [("cid".toList, "8.1.0".toList)], true, true, false,
          some "9.0".toList, true, true⟩ "cid".toList = .ok ⟨false, 0⟩) :=
  ⟨rfl, rfl, C4_artifact_not_found_asymmetry _ _ _ rfl rfl⟩

/-! ## Claim C5: rollback never raises -/

/-- C5 (code bug): the claim matches the intent — on Linux all three
rollback modes, and on Windows the install mode, return a result dict for
every host environment — but `_rollback_windows("uninstall")` evaluates
`os.path.join(self.install_dir, ...)` where `install_dir` is an attribute
nothing ever assigns, so it raises `AttributeError` unconditionally instead
of returning a result. -/
theorem C5_rollback_windows_uninstall_raises (env : RollbackEnv) :
    rollback true env "uninstall".toList = .error installDirAttrErr ∧
    (∃ r, rollback false env "install".toList = .ok (some r)) ∧
    (∃ r, rollback false env "uninstall".toList = .ok (some r)) ∧
    (∃ r, rollback false env "upgrade".toList = .ok (some r)) ∧
    (∃ r, rollback true env "install".toList = .ok (some r)) :=
  ⟨rfl, ⟨_, rfl⟩, ⟨_, rfl⟩, ⟨_, rfl⟩, ⟨_, rfl⟩⟩

/-! ## Claim C6: command-runner totality -/

/-- C6 counterexample: on Linux with dry-run off, a string command with a
trailing backslash makes `shlex.split` raise
`ValueError("No escaped character")` before the `try` block of
`sp_server_utils.exec_run`, so the runner throws instead of returning an
`{rc, stdout, stderr}` result. -/
theorem C6_counterexample :
    exceptErr? (exec_run_sp ⟨⟨some "Linux".toList, none⟩, false⟩
      (.str "rm -rf /tmp/x \\".toList) (.completed 0 [] [])) =
      some "No escaped character".toList := by decide

theorem exec_run_sp_of_tokenizes (ctx : ExecContext) (cmd : PyCmd)
    (proc : ProcOutcome) (htok : spTokenizes ctx cmd = true) :
    exec_run_sp ctx cmd proc =
      .ok (if ctx.dry_run then ⟨0, [], []⟩ else procToResult proc) := by
  unfold spTokenizes at htok
  unfold exec_run_sp
  by_cases hlin : pyLower (sp_os_oskey ctx.os).os = "linux".toList
  · rw [if_pos hlin] at htok
    rw [if_pos hlin]
    cases cmd with
    | str s =>
      replace htok : (shlexSplit s).isOk = true := htok
      rw [show spSplitStep (.str s) = (shlexSplit s).map (fun _ => ()) from rfl]
      cases hsp : shlexSplit s with
      | error e =>
        rw [hsp] at htok
        exact absurd htok (by simp [Except.isOk, Except.toBool])
      | ok v =>
        cases hdry : ctx.dry_run <;> simp [Except.map, hdry]
    | list xs =>
      replace htok : false = true := htok
      exact absurd htok (by simp)
  · rw [if_neg hlin]
    cases hdry : ctx.dry_run <;> simp [hdry]

theorem exec_run_sp_dry_proc_irrelevant (ctx : ExecContext) (cmd : PyCmd)
    (proc proc2 : ProcOutcome) (hdry : ctx.dry_run = true) :
    exec_run_sp ctx cmd proc = exec_run_sp ctx cmd proc2 := by
  simp [exec_run_sp, hdry]

/-- C6 (amended): with dry-run off, the `tasks/utils.py` runner returns a
result for every command and process outcome, mapping any raised exception
to rc 127 with the message in stderr; the `sp_server_utils.py` runner
returns exactly the same result for every command whose Linux tokenizing
preamble succeeds (string commands `shlex.split` accepts; every command on
non-Linux), and only commands rejected by that preamble escape as
exceptions. -/
theorem C6_command_runner_totality (ctx : ExecContext) (cmd : PyCmd)
    (proc : ProcOutcome) (hdry : ctx.dry_run = false) :
    (∀ msg, proc = .exc msg → exec_run_tasks ctx cmd proc = ⟨127, [], msg⟩) ∧
    (∀ rc out err, proc = .completed rc out err →
      exec_run_tasks ctx cmd proc = ⟨rc, out, err⟩) ∧
    (spTokenizes ctx cmd = true →
      exec_run_sp ctx cmd proc = .ok (exec_run_tasks ctx cmd proc)) := by
  refine ⟨?_, ?_, ?_⟩
  · rintro msg rfl
    simp [exec_run_tasks, procToResult, hdry]
  · rintro rc out err rfl
    simp [exec_run_tasks, procToResult, hdry]
  · intro htok
    rw [exec_run_sp_of_tokenizes ctx cmd proc htok]
    simp [exec_run_tasks, hdry]

/-- Witness for C6: the totality statement at a Linux context with dry-run
off, a well-formed string command, and a raising process outcome. -/
theorem C6_command_runner_totality_witness :
    (⟨⟨some "Linux".toList, none⟩, false⟩ : ExecContext).dry_run = false ∧
    spTokenizes ⟨⟨some "Linux".toList, none⟩, false⟩ (.str "rpm -q TIVsm-BA".toList) = true ∧
    ((∀ msg, (ProcOutcome.exc "boom".toList) = .exc msg →
        exec_run_tasks ⟨⟨some "Linux".toList, none⟩, false⟩ (.str "rpm -q TIVsm-BA".toList)
          (.exc "boom".toList) = ⟨127, [], msg⟩) ∧
      (∀ rc out err, (ProcOutcome.exc "boom".toList) = .completed rc out err →
        exec_run_tasks ⟨⟨some "Linux".toList, none⟩, false⟩ (.str "rpm -q TIVsm-BA".toList)
          (.exc "boom".toList) = ⟨rc, out, err⟩) ∧
      (spTokenizes ⟨⟨some "Linux".toList, none⟩, false⟩ (.str "rpm -q TIVsm-BA".toList) = true →
        exec_run_sp ⟨⟨some "Linux".toList, none⟩, false⟩ (.str "rpm -q TIVsm-BA".toList)
            (.exc "boom".toList) =
          .ok (exec_run_tasks ⟨⟨some "Linux".toList, none⟩, false⟩
            (.str "rpm -q TIVsm-BA".toList) (.exc "boom".toList)))) :=
  ⟨rfl, by decide, C6_command_runner_totality _ _ _ rfl⟩

/-! ## Claim C7: dry-run short-circuit -/

/-- C7 counterexample: with dry-run on, the `sp_server_utils.py` runner
still tokenizes Linux string commands first, so a command with a trailing
backslash raises instead of returning the synthetic `{rc: 0}` result. -/
theorem C7_counterexample :
    exceptErr? (exec_run_sp ⟨⟨some "Linux".toList, none⟩, true⟩
      (.str "echo \\".toList) (.completed 0 [] [])) =
      some "No escaped character".toList := by decide

/-- C7 (amended): with the dry-run flag on, the `tasks/utils.py` runner
returns `{rc: 0, stdout: "", stderr: ""}` for every command, and the
`sp_server_utils.py` runner does so for every command its Linux tokenizing
preamble accepts; neither consults the process boundary at all (the result
is the same whatever the process outcome would have been). -/
theorem C7_dry_run_short_circuit (ctx : ExecContext) (cmd : PyCmd)
    (proc proc2 : ProcOutcome) (hdry : ctx.dry_run = true) :
    exec_run_tasks ctx cmd proc = ⟨0, [], []⟩ ∧
    (spTokenizes ctx cmd = true → exec_run_sp ctx cmd proc = .ok ⟨0, [], []⟩) ∧
    exec_run_sp ctx cmd proc = exec_run_sp ctx cmd proc2 ∧
    exec_run_tasks ctx cmd proc = exec_run_tasks ctx cmd proc2 := by
  refine ⟨by simp [exec_run_tasks, hdry], ?_,
    exec_run_sp_dry_proc_irrelevant ctx cmd proc proc2 hdry,
    by simp [exec_run_tasks, hdry]⟩
  intro htok
  rw [exec_run_sp_of_tokenizes ctx cmd proc htok]
  simp [hdry]

/-- Witness for C7: the short-circuit at a Linux dry-run context with a
well-formed command and two different process outcomes. -/
theorem C7_dry_run_short_circuit_witness :
    (⟨⟨some "Linux".toList, none⟩, true⟩ : ExecContext).dry_run = true ∧
    (exec_run_tasks ⟨⟨some "Linux".toList, none⟩, true⟩ (.str "echo hi".toList)
        (.completed 1 "x".toList "y".toList) = ⟨0, [], []⟩ ∧
      (spTokenizes ⟨⟨some "Linux".toList, none⟩, true⟩ (.str "echo hi".toList) = true →
        exec_run_sp ⟨⟨some "Linux".toList, none⟩, true⟩ (.str "echo hi".toList)
          (.completed 1 "x".toList "y".toList) = .ok ⟨0, [], []⟩) ∧
      exec_run_sp ⟨⟨some "Linux".toList, none⟩, true⟩ (.str "echo hi".toList)
          (.completed 1 "x".toList "y".toList) =
        exec_run_sp ⟨⟨some "Linux".toList, none⟩, true⟩ (.str "echo hi".toList)
          (.exc "boom".toList) ∧
      exec_run_tasks ⟨⟨some "Linux".toList, none⟩, true⟩ (.str "echo hi".toList)
          (.completed 1 "x".toList "y".toList) =
        exec_run_tasks ⟨⟨some "Linux".toList, none⟩, true⟩ (.str "echo hi".toList)
          (.exc "boom".toList)) :=
  ⟨rfl, C7_dry_run_short_circuit _ _ _ _ rfl⟩

/-! ## Claim C8: installed-state line scanning -/

/-- C8 (code bug): the `return ret_data` of `ba_is_installed` sits inside
the `for line in stdlines` loop, so only the FIRST stdout line is ever
scanned.  Here the target package identifier occurs (case-insensitively) in
the second line, yet the installed-packages map stays empty — and the
status is even reported `True` with a "0 packages" message, because
`ret_data["status"]` is initialised to `True`. -/
theorem C8_ba_is_installed_first_line_only :
    listIsInfix (pyLower "com.tivoli.dsm.server".toList)
      (pyLower "com.tivoli.dsm.server_8.1.26.000.20240714".toList) = true ∧
    (ba_is_installed true
      ⟨0, "Installed Packages header\ncom.tivoli.dsm.server_8.1.26.000.20240714".toList, []⟩
      "com.tivoli.dsm.server".toList).installedpackages = [] ∧
    (ba_is_installed true
      ⟨0, "Installed Packages header\ncom.tivoli.dsm.server_8.1.26.000.20240714".toList, []⟩
      "com.tivoli.dsm.server".toList).status = true :=
  ⟨by decide, by decide, by decide⟩

/-! ## Claim C9: uninstall partial failure -/

/-- C9 counterexample: in a run where removing `TIVsm-BA` succeeds and
removing `gskssl64` fails, the `fail_json` report names only the failed
package — the succeeded package appears nowhere in it — refuting "the
report enumerates exactly which packages succeeded and which failed". -/
theorem C9_counterexample :
    (uninstall_ba_client uninstallEnvC).succeeded = ["TIVsm-BA".toList] ∧
    (uninstall_ba_client uninstallEnvC).outcome =
      .failJson "Uninstallation failed for packages: gskssl64. Reason(s): boom.".toList ∧
    listIsInfix "TIVsm-BA".toList
      "Uninstallation failed for packages: gskssl64. Reason(s): boom.".toList = false ∧
    (uninstall_ba_client uninstallEnvC).backupRemoved = false :=
  ⟨by decide, by decide, by decide, by decide⟩

/-- C9 (amended): whenever at least one attempted package removal fails,
`uninstall_ba_client` reports failure through `fail_json`, the message
enumerating exactly the failed packages with their reasons (succeeded
packages are collected but not reported), and the backup directory is not
deleted; the backup directory is removed exactly when the component was
installed and every attempted removal succeeded. -/
theorem C9_uninstall_partial_failure (env : UninstallEnv) :
    ((uninstall_ba_client env).failed ≠ [] →
      (uninstall_ba_client env).outcome =
        .failJson (uninstallFailMsg (uninstall_ba_client env).failed) ∧
      (uninstall_ba_client env).backupRemoved = false) ∧
    ((uninstall_ba_client env).backupRemoved = true ↔
      ((env.runCmd "rpm -q TIVsm-BA".toList).1 = 0 ∧
        (uninstall_ba_client env).failed = [])) := by
  by_cases h0 : (env.runCmd "rpm -q TIVsm-BA".toList).1 = 0
  · have hni : ¬ ((env.runCmd "rpm -q TIVsm-BA".toList).1 ≠ 0) := fun hn => hn h0
    cases hf : (uninstallScan env baUninstallOrder).2 with
    | nil =>
      have he : uninstall_ba_client env =
          ⟨.success, (uninstallScan env baUninstallOrder).1,
            (uninstallScan env baUninstallOrder).2, true⟩ := by
        unfold uninstall_ba_client
        rw [if_neg hni]
        simp [hf]
      rw [he]
      refine ⟨?_, ?_⟩
      · intro hff
        exact absurd hf hff
      · exact iff_of_true rfl ⟨h0, hf⟩
    | cons p ps =>
      have he : uninstall_ba_client env =
          ⟨.failJson (uninstallFailMsg (uninstallScan env baUninstallOrder).2),
            (uninstallScan env baUninstallOrder).1,
            (uninstallScan env baUninstallOrder).2, false⟩ := by
        unfold uninstall_ba_client
        rw [if_neg hni]
        simp [hf]
      rw [he]
      refine ⟨fun _ => ⟨rfl, rfl⟩, ?_⟩
      refine iff_of_false (by simp) ?_
      rintro ⟨-, hc⟩
      have hc2 : (uninstallScan env baUninstallOrder).2 = [] := hc
      rw [hf] at hc2
      exact List.noConfusion hc2
  · have hni : (env.runCmd "rpm -q TIVsm-BA".toList).1 ≠ 0 := h0
    have he : uninstall_ba_client env = ⟨.notInstalled, [], [], false⟩ := by
      unfold uninstall_ba_client
      rw [if_pos hni]
    rw [he]
    refine ⟨fun hff => absurd rfl hff, ?_⟩
    exact iff_of_false (by simp) (fun hc => h0 hc.1)

/-- Witness for C9: the amended property applied to the concrete
one-failure environment. -/
theorem C9_uninstall_partial_failure_witness :
    (uninstall_ba_client uninstallEnvC).failed ≠ [] ∧
    ((uninstall_ba_client uninstallEnvC).outcome =
        .failJson (uninstallFailMsg (uninstall_ba_client uninstallEnvC).failed) ∧
      (uninstall_ba_client uninstallEnvC).backupRemoved = false) :=
  ⟨by decide, (C9_uninstall_partial_failure uninstallEnvC).1 (by decide)⟩

/-! ## Claim C10: upgrade decision with unreadable current version -/

/-- C10 (confirmed): `version_is_newer` answers `True` for every candidate
whenever the current version is `None` or the empty string — an upgrade
decision made without a readable current version always treats the
candidate as strictly newer, including the concrete cases where the
candidate equals or precedes a version that might actually be installed. -/
theorem C10_version_is_newer_falsy_current (candidate : List Char) :
    version_is_newer none candidate = true ∧
    version_is_newer (some []) candidate = true :=
  ⟨rfl, rfl⟩

end StorageProtect
